import Mathlib

/-!
Shallow embedding of the Conhos CLI core (src/src/types/interfaces.js):
the configuration validator `checkConfig`, the volume resolver
`changeConfigFileVolumes`, the cost calculator `computeCostService` and the
git reference helpers `checkGitType` / `parseGitUrl`, together with the
constants and small codecs they use. JS numbers are modelled as rationals,
JS records as association lists in insertion order, absent optional fields
as `none`, and the two external collaborators (the filesystem capability and
the network fetch) as explicit oracle parameters.
-/

/-- JS truthiness of a string: falsy exactly when empty. -/
def strFalsy (s : String) : Bool := s == ""

/-- JS truthiness of an optional string field: `undefined` and `""` are falsy. -/
def optStrFalsy (s : Option String) : Bool :=
  match s with
  | none => true
  | some v => strFalsy v

/-- Generic lookup in an association list, first match wins (a JS object has
unique keys; the list model keeps insertion order). -/
def lookupL {α : Type} : List (String × α) → String → Option α
  | [], _ => none
  | (k, v) :: t, key => if k == key then some v else lookupL t key

/-- Character class of /[/a-zA-Z0-9.\-_]/, shared by VOLUME_LOCAL_REGEX and
VOLUME_REMOTE_REGEX in the source. -/
def isVolChar (c : Char) : Bool :=
  c == '/' || c.isAlpha || c.isDigit || c == '.' || c == '-' || c == '_'

/-- JS `str.match(VOLUME_LOCAL_REGEX)` (/^[/a-zA-Z0-9.\-_]+:/) with the
trailing colon stripped (VOLUME_LOCAL_POSTFIX_REGEX): the leading run of
volume characters, required nonempty and followed by a colon. -/
def volumeLocalPath (s : String) : Option String :=
  let cs := s.toList
  let run := cs.takeWhile isVolChar
  if run.length > 0 && (cs.drop run.length).head? == some ':' then
    some (String.mk run)
  else none

/-- JS `str.match(VOLUME_REMOTE_REGEX)` (/:[/a-zA-Z0-9.\-_]+$/) with the
leading colon stripped (VOLUME_REMOTE_PREFIX_REGEX): the trailing run of
volume characters, required nonempty and preceded by a colon (the class
excludes the colon, so the run after the last colon is the only candidate). -/
def volumeRemotePath (s : String) : Option String :=
  let rcs := s.toList.reverse
  let run := rcs.takeWhile isVolChar
  if run.length > 0 && (rcs.drop run.length).head? == some ':' then
    some (String.mk run.reverse)
  else none

/-- Prefix test over the character lists (String.isPrefixOf does not reduce
in the kernel). -/
def strHasHead (p s : String) : Bool := p.toList.isPrefixOf s.toList

/-- JS `volume.match(/^https?:\/\//)`: the literal scheme head, greedy on the
optional s. -/
def httpHead (s : String) : Option String :=
  if strHasHead "https://" s then some "https://"
  else if strHasHead "http://" s then some "http://" else none

/-- Character class of /[a-zA-Z_0-9\-\\.]/ used for the filename match in
changeConfigFileVolumes (letters, digits, underscore, dash, backslash, dot). -/
def isFilenameChar (c : Char) : Bool :=
  c.isAlpha || c.isDigit || c == '_' || c == '-' || c == '\\' || c == '.'

/-- JS `local.match(/\/?[a-zA-Z_0-9\-\\.]+$/)` with a leading slash stripped:
the trailing run of filename characters, required nonempty. -/
def volumeFilename (s : String) : Option String :=
  let run := s.toList.reverse.takeWhile isFilenameChar
  if run.length > 0 then some (String.mk run.reverse) else none

/-- Character class of /[A-Za-z0-9_]/ for environment variable names. -/
def isEnvNameChar (c : Char) : Bool := c.isAlpha || c.isDigit || c == '_'

/-- Whether /^[A-Za-z0-9_]+=/ matches: a nonempty leading run of name
characters followed by an equals sign. -/
def envNameTest (s : String) : Bool :=
  let cs := s.toList
  let run := cs.takeWhile isEnvNameChar
  run.length > 0 && (cs.drop run.length).head? == some '='

/-- JS getEnvironmentValue: under a successful name test, the rest after the
matched `NAME=` head (the class excludes '=', so the match is unambiguous). -/
def getEnvironmentValue (s : String) : Option String :=
  let cs := s.toList
  let run := cs.takeWhile isEnvNameChar
  if envNameTest s then some (String.mk (cs.drop (run.length + 1))) else none

/-- JS getEnvironmentName: under a successful name test, `name.replace(/=.*/, '')`
removes from the first equals sign to the end of its line (a JS dot does not
match a newline), keeping any later lines. -/
def getEnvironmentName (s : String) : Option String :=
  if envNameTest s then
    let cs := s.toList
    let pre := cs.takeWhile (fun c => c != '=')
    let aft := (cs.drop pre.length).dropWhile (fun c => c != '\n')
    some (String.mk (pre ++ aft))
  else none

/-- Parsed `NAME=value` environment entry. -/
structure EnvVariable where
  name : String
  value : String
deriving DecidableEq, Repr

/-- JS parseEnvironmentVariable: both parts must be present and truthy. -/
def parseEnvironmentVariable (s : String) : Option EnvVariable :=
  match getEnvironmentName s, getEnvironmentValue s with
  | some n, some v => if strFalsy n || strFalsy v then none else some ⟨n, v⟩
  | _, _ => none

/-- Node path.basename for POSIX paths: trailing slashes are dropped and the
part after the last remaining slash is returned; an all-slash path gives "/",
the empty path gives "". -/
def basename (s : String) : String :=
  let cs := s.toList
  if cs.length > 0 && cs.all (fun c => c == '/') then "/"
  else
    let t := cs.reverse.dropWhile (fun c => c == '/')
    String.mk (t.takeWhile (fun c => c != '/')).reverse

/-- Node path.isAbsolute for POSIX paths. -/
def isAbsolute (s : String) : Bool := strHasHead "/" s

/-- Node path.resolve(dir, name) for the one call site of the source: the
joined path, or name itself when it is already absolute. -/
def resolvePath (dir name : String) : String :=
  if isAbsolute name then name else dir ++ "/" ++ name

/-- Whether the needle occurs as a contiguous substring. -/
def containsSub : List Char → List Char → Bool
  | [], needle => needle == []
  | c :: t, needle => needle.isPrefixOf (c :: t) || containsSub t needle

/-- Removal of the first occurrence of a substring (JS String.replace with a
plain, unanchored pattern). -/
def removeFirstSub : List Char → List Char → List Char
  | [], _ => []
  | c :: t, needle =>
    if needle.isPrefixOf (c :: t) then (c :: t).drop needle.length
    else c :: removeFirstSub t needle

/-- JS `url.replace(/\.git/, '')`: removes the first occurrence of the
literal substring ".git" anywhere in the string (source: cleanGitPostfix). -/
def cleanGitPostfix (s : String) : String :=
  String.mk (removeFirstSub s.toList ".git".toList)

/-- One regex atom: a literal character or the dot wildcard. -/
inductive RegAtom where
  | lit (c : Char)
  | any
deriving DecidableEq, Repr

/-- Whether the atom sequence matches at the head of the text. -/
def atomsMatchAt : List RegAtom → List Char → Bool
  | [], _ => true
  | _ :: _, [] => false
  | .lit c :: ps, d :: ds => c == d && atomsMatchAt ps ds
  | .any :: ps, _ :: ds => atomsMatchAt ps ds

/-- Whether the atom sequence matches anywhere in the text (JS RegExp.test of
an unanchored pattern). -/
def atomsFound (ps : List RegAtom) : List Char → Bool
  | [] => atomsMatchAt ps []
  | c :: t => atomsMatchAt ps (c :: t) || atomsFound ps t

/-- Pattern of /https:\/\/<host>.com/: every character literal except the
unescaped dot before "com", which is a wildcard. -/
def gitHostPattern (host : String) : List RegAtom :=
  ("https://" ++ host).toList.map RegAtom.lit ++ [RegAtom.any] ++
    ("com".toList.map RegAtom.lit)

/-- JS checkGitType: the github test runs first, the gitlab test second and
overwrites, so a url matching both classifies as gitlab. -/
def checkGitType (url : String) : Option String :=
  let res : Option String := none
  let res := if atomsFound (gitHostPattern "github") url.toList then some "github" else res
  let res := if atomsFound (gitHostPattern "gitlab") url.toList then some "gitlab" else res
  res

/-- Character class of /[a-zA-Z0-9_-]/ (path segments, pwd test). -/
def isSegChar (c : Char) : Bool := c.isAlpha || c.isDigit || c == '_' || c == '-'

/-- Parsed git repository reference. -/
structure ParsedGitRepo where
  user : String
  project : String
deriving DecidableEq, Repr

/-- JS `_url.match(/\/[a-zA-Z0-9_-]+$/)` followed by replace: the trailing run
of segment characters, required nonempty and preceded by a slash; returns the
run and the text before the slash. -/
def lastPathSeg (cs : List Char) : Option (List Char × List Char) :=
  let rcs := cs.reverse
  let run := rcs.takeWhile isSegChar
  if run.length > 0 && (rcs.drop run.length).head? == some '/' then
    some (run.reverse, (rcs.drop (run.length + 1)).reverse)
  else none

/-- JS parseGitUrl: strip the first ".git", take the last slash-led segment as
project, strip it, take the next as user. -/
def parseGitUrl (url : String) : Option ParsedGitRepo :=
  let u := cleanGitPostfix url
  match lastPathSeg u.toList with
  | none => none
  | some (proj, rest) =>
    match lastPathSeg rest with
    | none => none
    | some (user, _) => some ⟨String.mk user, String.mk proj⟩

/-- Memory entry of a catalog size. -/
structure SizeMemory where
  name : String
  value : ℚ
deriving DecidableEq, Repr

/-- One size of the server catalog. -/
structure DeploySize where
  name : String
  memory : SizeMemory
  cpus : ℚ
  storage : String
  ports : ℕ
deriving DecidableEq, Repr

/-- One service entry of the server catalog. -/
structure DeployService where
  type : String
  name : String
  images : String
  tags : List String
  hub : String
deriving DecidableEq, Repr

/-- The server catalog (DeployData). -/
structure DeployData where
  services : List DeployService
  sizes : List DeploySize
  baseValue : ℚ
  baseCost : ℚ
deriving DecidableEq, Repr

/-- Result of computeCostService. -/
structure ServiceCost where
  month : ℚ
  hour : ℚ
  minute : ℚ
deriving DecidableEq, Repr

/-- JS computeCostService: null when the size is not in the catalog, otherwise
the priced tier. SHIFT_PRICE_COEFF is 1.3; `toFixed(0)` followed by parseInt
rounds to the nearest integer with ties to the larger one, which is Mathlib
`round`. -/
def computeCostService (serviceSize : String) (dd : DeployData) : Option ServiceCost :=
  let index := dd.sizes.findIdx (fun z => z.name == serviceSize)
  match dd.sizes.find? (fun z => z.name == serviceSize) with
  | none => none
  | some z =>
    let coeff : ℚ := 1 - (index : ℚ) / (13 / 10) / 10
    let month : ℚ := ((round (z.memory.value / (dd.baseValue / (dd.baseCost * 100 * coeff))) : ℤ) : ℚ)
    some { month := month, hour := month / 30 / 24, minute := month / 30 / 24 / 60 }

/-- JS Array.prototype.join('|'). -/
def joinBar : List String → String
  | [] => ""
  | [x] => x
  | x :: xs => x ++ "|" ++ joinBar xs

/-- Source SERVICES_CUSTOM. -/
def SERVICES_CUSTOM : List String := ["node", "rust", "python", "golang", "php"]

/-- Source SERVICES_COMMON. -/
def SERVICES_COMMON : List String :=
  ["redis", "postgres", "mysql", "mariadb", "mongo", "rabbitmq", "adminer",
   "phpmyadmin", "pgadmin", "mongo_express"]

/-- Source SERVICES_COMMON_PUBLIC. -/
def SERVICES_COMMON_PUBLIC : List String :=
  ["adminer", "phpmyadmin", "pgadmin", "mongo_express"]

/-- Source SERVICE_TYPES: the common list concatenated with the custom one. -/
def SERVICE_TYPES : List String := SERVICES_COMMON ++ SERVICES_CUSTOM

/-- Source ENVIRONMENT_SWITCH.mysql.rootPassword. -/
def ENVIRONMENT_SWITCH_mysql_rootPassword : String := "MYSQL_ROOT_PASSWORD"

/-- Source ENVIRONMENT_REQUIRED_COMMON as a total function on type names. -/
def ENVIRONMENT_REQUIRED_COMMON (t : String) : List String :=
  if t == "redis" then ["REDIS_PASSWORD"]
  else if t == "postgres" then ["POSTGRES_PASSWORD", "POSTGRES_USER", "POSTGRES_DB"]
  else if t == "adminer" then []
  else if t == "mysql" then
    ["MYSQL_ROOT_PASSWORD", "MYSQL_USER", "MYSQL_PASSWORD", "MYSQL_DATABASE"]
  else if t == "mariadb" then
    ["MARIADB_ROOT_PASSWORD", "MARIADB_USER", "MARIADB_PASSWORD", "MARIADB_DATABASE"]
  else if t == "mongo" then ["MONGO_INITDB_ROOT_USERNAME", "MONGO_INITDB_ROOT_PASSWORD"]
  else if t == "rabbitmq" then ["RABBITMQ_DEFAULT_PASS", "RABBITMQ_DEFAULT_USER"]
  else if t == "phpmyadmin" then []
  else if t == "pgadmin" then ["PGADMIN_DEFAULT_PASSWORD", "PGADMIN_DEFAULT_EMAIL"]
  else if t == "mongo_express" then
    ["ME_CONFIG_BASICAUTH_USERNAME", "ME_CONFIG_BASICAUTH_PASSWORD",
     "ME_CONFIG_MONGODB_AUTH_USERNAME", "ME_CONFIG_MONGODB_AUTH_PASSWORD"]
  else []

/-- Source Object.keys(GIT_UNTRACKED_POLICY) in insertion order. -/
def GIT_UNTRACKED_POLICY : List String := ["merge", "checkout", "push"]

/-- Source PORT_TYPES (insertion order of the record). -/
def PORT_TYPES : List String := ["http", "php", "chunked", "ws"]

/-- Source PORT_TIMEOUTS. -/
def PORT_TIMEOUTS : List String := ["ms", "s", "m", "h", "d", "w", "M", "y"]

/-- Source BUFFER_SIZE_MAX. -/
def BUFFER_SIZE_MAX : ℕ := 512

/-- Source PWD_DEFAULT. -/
def PWD_DEFAULT : String := "./"

/-- Source COUNT_OF_VOLUMES_MAX. -/
def COUNT_OF_VOLUMES_MAX : ℕ := 10

/-- Source VOLUME_UPLOAD_MAX_SIZE. -/
def VOLUME_UPLOAD_MAX_SIZE : ℕ := 100000

/-- Source DOMAIN_MAX_LENGTH. -/
def DOMAIN_MAX_LENGTH : ℕ := 77

/-- Source DEFAULT_LOCATION. -/
def DEFAULT_LOCATION : String := "/"

/-- Source isCustomService, as the membership test it performs. -/
def isCustomService (t : String) : Bool := SERVICES_CUSTOM.contains t

/-- Source isCommonService. -/
def isCommonService (t : String) : Bool := SERVICES_COMMON.contains t

/-- Source isCommonServicePublic. -/
def isCommonServicePublic (t : String) : Bool := SERVICES_COMMON_PUBLIC.contains t

/-- Source checkVersion. -/
def checkVersion (services : List DeployService) (version type : String) : Bool :=
  match services.find? (fun s => s.type == type) with
  | none => false
  | some s => s.tags.contains version

/-- Source getServiceBySize. -/
def getServiceBySize (sizes : List DeploySize) (size : String) : Option DeploySize :=
  sizes.find? (fun z => z.name == size)

/-- One static entry of a port. -/
structure StaticItem where
  location : String := ""
  path : String := ""
  index : Option String := none
deriving DecidableEq, Repr

/-- One declared port. The port number is modelled as an integer (its decimal
string then never holds a dot and parseInt never fails, so the source's
is-integer check cannot fire over this model). -/
structure Port where
  port : Int
  type : String
  location : Option String := none
  timeout : Option String := none
  buffer_size : Option String := none
  proxy_path : Option String := none
  «static» : Option (List StaticItem) := none
deriving DecidableEq, Repr

/-- Git reference of a custom service. -/
structure Git where
  url : String := ""
  branch : String := ""
  untracked : Option String := none
deriving DecidableEq, Repr

/-- One declared service of the config file. -/
structure Service where
  active : Bool := false
  type : String := ""
  size : String := ""
  version : String := ""
  pwd : Option String := none
  git : Option Git := none
  exclude : Option (List String) := none
  command : Option String := none
  ports : Option (List Port) := none
  volumes : Option (List String) := none
  depends_on : Option (List String) := none
  domains : Option (List (String × String)) := none
  environment : Option (List String) := none
deriving DecidableEq, Repr

/-- The optional server block of the config file. -/
structure ServerSpec where
  node_name : Option String := none
  api_key : Option String := none
deriving DecidableEq, Repr

/-- The config file; services is an association list in insertion order, with
the whole record optional as in the untyped input. -/
structure ConfigFile where
  name : String := ""
  server : Option ServerSpec := none
  services : Option (List (String × Service)) := none
deriving DecidableEq, Repr

/-- One validation finding (CheckConfigResult). -/
structure Finding where
  msg : String
  data : String
  exit : Bool
deriving DecidableEq, Repr

/-- The filesystem capability used by the validator when available. -/
structure FSModel where
  existsSync : String → Bool
  isDirectory : String → Bool
  statSize : String → ℕ

/-- Finding: deploy data missing. -/
def fDeployDataMissing : Finding :=
  ⟨"Something went wrong", "Deploy data didn't receive from server", true⟩

/-- Finding: server block without node_name. -/
def fServerNodeName : Finding :=
  ⟨"Property is required for parameter \"server\"", "node_name", true⟩

/-- Finding: services field missing. -/
def fServicesMissing : Finding := ⟨"Required field is missing", "services", true⟩

/-- Finding: services list empty. -/
def fServicesEmpty : Finding :=
  ⟨"Services list can not be empty", "Add at least one service", true⟩

/-- Finding: too many volumes. -/
def fTooManyVolumes (item : String) (n : ℕ) : Finding :=
  ⟨"Service \"" ++ item ++ "\" has too much volumes: \"" ++ toString n ++ "\"",
   "Maximum count of volumes is " ++ toString COUNT_OF_VOLUMES_MAX, true⟩

/-- Finding: volume fails the local regex. -/
def fVolLocalBad (item vol : String) : Finding :=
  ⟨"Service \"" ++ item ++ "\" has wrong volume \"" ++ vol ++
     "\". Local part of volume must satisfy regex:",
   "/^[/a-zA-Z0-9.\\-_]+:/", true⟩

/-- Finding: local volume path does not exist. -/
def fVolNotExists (item vol path : String) : Finding :=
  ⟨"Service \"" ++ item ++ "\" has wrong volume \"" ++ vol ++
     "\". Local path is not exists:", path, true⟩

/-- Finding: local volume path is a directory. -/
def fVolIsDirectory (item vol : String) : Finding :=
  ⟨"Service \"" ++ item ++ "\" has wrong volume \"" ++ vol ++ "\".",
   "Directory can't be a volume, only files", true⟩

/-- Finding: local volume file too big. -/
def fVolTooBig (path item : String) : Finding :=
  ⟨"Volume file '" ++ path ++ "' of service \"" ++ item ++ "\" is too big.",
   "Maximum size of volume file is: " ++ toString (VOLUME_UPLOAD_MAX_SIZE / 1000) ++ "kb", true⟩

/-- Finding: duplicate volume file name. -/
def fVolDupName (item filename : String) : Finding :=
  ⟨"Service \"" ++ item ++ "\" has two or more volumes with the same file name.",
   filename, true⟩

/-- Finding: volume fails the remote regex. -/
def fVolRemoteBad (item vol : String) : Finding :=
  ⟨"Service \"" ++ item ++ "\" has wrong volume \"" ++ vol ++
     "\". Remote part of volume must satisfy regex:",
   "/:[/a-zA-Z0-9.\\-_]+$/", true⟩

/-- Finding: remote volume path not absolute. -/
def fVolRemoteNotAbs (item vol remotePath : String) : Finding :=
  ⟨"Service \"" ++ item ++ "\" has wrong volume \"" ++ vol ++
     "\". Remote part of volume is not absolute", remotePath, true⟩

/-- Finding: service name holds a percent sign. -/
def fNameSymbol (item : String) : Finding :=
  ⟨"Service name contains the not allowed symbol: '%'", "\"" ++ item ++ "\"", true⟩

/-- Finding: unknown service type. -/
def fTypeNotAllowed (type : String) : Finding :=
  ⟨"Service type \"" ++ type ++ "\" is not allowed",
   "Allowed service types: [" ++ joinBar SERVICE_TYPES ++ "]", true⟩

/-- Finding: non-public common service with ports. -/
def fPublicPorts (item : String) : Finding :=
  ⟨"Service \"" ++ item ++ "\" can not have public ports",
   "Only services can have public ports: [" ++
     joinBar (SERVICES_CUSTOM ++ SERVICES_COMMON_PUBLIC) ++ "]", true⟩

/-- Finding: version missing. -/
def fVersionMissing (item : String) : Finding :=
  ⟨"Version doesn't exists in service \"" ++ item ++ "\"",
   "Try to add the field version to the config file", true⟩

/-- Finding: size not in the catalog. -/
def fSizeNotAllowed (size item names : String) : Finding :=
  ⟨"Size '" ++ size ++ "' doesn't allowed in service \"" ++ item ++ "\"",
   "Allowed sizes: " ++ names, true⟩

/-- Finding: version not in the catalog tags (advisory). -/
def fVersionUnsupported (version item hub : String) : Finding :=
  ⟨"Version \"" ++ version ++ "\" of service \"" ++ item ++ "\" is no longer supported",
   "See allowed versions: " ++ hub ++ "tags", false⟩

/-- Finding: pwd missing in a custom service. -/
def fPwdMissing (item : String) : Finding :=
  ⟨"Required parameter 'pwd' is missing in service \"" ++ item ++ "\"",
   "\"" ++ item ++ "\"", true⟩

/-- Finding: pwd absolute. -/
def fPwdAbsolute (item pwd : String) : Finding :=
  ⟨"Parameter 'pwd' must be relative in service \"" ++ item ++ "\"", pwd, true⟩

/-- Finding: pwd not matching the default shape. -/
def fPwdDefault (item pwd : String) : Finding :=
  ⟨"Default parameter 'pwd' must be '" ++ PWD_DEFAULT ++ "' in service \"" ++ item ++ "\"",
   pwd, true⟩

/-- Finding: git url missing. -/
def fGitUrlMissing (item url : String) : Finding :=
  ⟨"Missing required parameter 'git.url' in service \"" ++ item ++ "\"", url, true⟩

/-- Finding: git branch missing (the source reports the url as data). -/
def fGitBranchMissing (item url : String) : Finding :=
  ⟨"Missing required parameter 'git.branch' in service \"" ++ item ++ "\"", url, true⟩

/-- Finding: unsupported git host. -/
def fGitTypeWrong (item : String) : Finding :=
  ⟨"Wrong parameter 'git.url' in service \"" ++ item ++ "\"",
   "Only urls which related to github|gitlab are supported", true⟩

/-- Finding: git url unparsable. -/
def fGitParseFailed (item : String) : Finding :=
  ⟨"Failed to parse parameter 'git.url' in service \"" ++ item ++ "\"",
   "Url must contain user and repository for example: https://github.com/user/repository.git",
   true⟩

/-- Finding: unknown git untracked policy. -/
def fGitUntracked (item : String) : Finding :=
  ⟨"Failed parameter 'git.untracked' in service \"" ++ item ++ "\"",
   "Allowed values [" ++ joinBar GIT_UNTRACKED_POLICY ++ "]", true⟩

/-- Finding: more ports than the size allows. -/
def fPortsMax (item size : String) (n : ℕ) : Finding :=
  ⟨"Maximum port length for service \"" ++ item ++ "\" with size \"" ++ size ++
     "\" is " ++ toString n,
   "Decrease count of ports at least to \"" ++ toString n ++
     "\" or set up a bigger service size", true⟩

/-- Finding: timeout on a port type it does not affect (advisory). -/
def fTimeoutNoEffect (port : Int) (item type : String) : Finding :=
  ⟨"Timeout for port \"" ++ toString port ++ "\" of service \"" ++ item ++
     "\" doesn't have any effect",
   "Timeout property doesn't allow for port type \"" ++ type ++ "\"", false⟩

/-- Finding: malformed timeout. -/
def fTimeoutNotString (port : Int) (item timeout : String) : Finding :=
  ⟨"Timeout for port \"" ++ toString port ++ "\" of service \"" ++ item ++
     "\" must be a string",
   "For example \"30s\", received \"" ++ timeout ++ "\"", true⟩

/-- Finding: unknown timeout postfix. -/
def fTimeoutPostfix (port : Int) (item pf : String) : Finding :=
  ⟨"Timeout for port \"" ++ toString port ++ "\" of service \"" ++ item ++
     "\" has wrong postfix",
   "Allowed postfixes " ++ joinBar PORT_TIMEOUTS ++ ", received \"" ++ pf ++ "\"",
   true⟩

/-- Finding: buffer size on a port type it does not affect (advisory). -/
def fBufferNoEffect (port : Int) (item type : String) : Finding :=
  ⟨"Buffer size for port \"" ++ toString port ++ "\" of service \"" ++ item ++
     "\" doesn't have any effect",
   "Buffer size property doesn't allow for port type \"" ++ type ++ "\"", false⟩

/-- Finding: malformed buffer size. -/
def fBufferNotString (port : Int) (item buffer : String) : Finding :=
  ⟨"Buffer size for port \"" ++ toString port ++ "\" of service \"" ++ item ++
     "\" must be a string",
   "For example \"10k\", received \"" ++ buffer ++ "\"", true⟩

/-- Finding: buffer size above the cap. -/
def fBufferTooBig (port : Int) (item : String) (num : ℕ) : Finding :=
  ⟨"Buffer size for port \"" ++ toString port ++ "\" of service \"" ++ item ++
     "\" is not allowed",
   "Maximmum allowed buffer size is \"" ++ toString BUFFER_SIZE_MAX ++
     "k\", received \"" ++ toString num ++ "k\"", true⟩

/-- Finding: location with characters outside the allowed class. -/
def fLocationSymbols (nm location item : String) : Finding :=
  ⟨nm ++ " \"" ++ location ++ "\" of service \"" ++ item ++ "\" has unallowed symbols",
   "Allowed regexp /^[\\//0-9A-Za-z\\-_/]+$/", true⟩

/-- Finding: location with a wrong start. -/
def fLocationStart (nm location item : String) : Finding :=
  ⟨nm ++ " \"" ++ location ++ "\" of service \"" ++ item ++ "\" have wrong start",
   "It must starts with \"/\", Allowed start regexp /^\\/[a-zA-Z0-9]*/", true⟩

/-- Finding: location with doubled slashes. -/
def fLocationSlashes (nm location item : String) : Finding :=
  ⟨nm ++ " \"" ++ location ++ "\" of service \"" ++ item ++
     "\" have two or more slushes together",
   "Do not use two and more slushes together in location", true⟩

/-- Finding: proxy_path on a php port (advisory). -/
def fProxyPathPhp (item : String) : Finding :=
  ⟨"Property \"proxy_path\" doesn't have any effect for port type \"php\"", item, false⟩

/-- Finding: unknown port type. -/
def fPortTypeNotAllowed (type item : String) : Finding :=
  ⟨"Port type \"" ++ type ++ "\" of service \"" ++ item ++ "\" is not allowed",
   "Allowed port types: [" ++ joinBar PORT_TYPES ++ "]", true⟩

/-- Finding: static.location missing. -/
def fStaticLocationRequired (port : Int) (item : String) : Finding :=
  ⟨"Field \"static.location\" is required for port " ++ toString port, item, true⟩

/-- Finding: static.path missing. -/
def fStaticPathRequired (port : Int) (item : String) : Finding :=
  ⟨"Field \"static.path\" is required for port " ++ toString port, item, true⟩

/-- Finding: static.index with no allowed character. -/
def fStaticIndexSymbols (port : Int) (item : String) : Finding :=
  ⟨"Field \"static.index\" for port " ++ toString port ++ " in service \"" ++ item ++
     "\" contains not allowed symbols",
   "Allowed regexp /[a-zA-Z0-9\\\\.\\-_]/", true⟩

/-- Finding: static.location equal to location. -/
def fStaticLocationSame (port : Int) (item : String) : Finding :=
  ⟨"Fields \"location\" and \"static.location\" can not be the same",
   "Check port \"" ++ toString port ++ "\" of service \"" ++ item ++ "\"", true⟩

/-- Finding: domain too long. -/
def fDomainTooLong (len : ℕ) (domain : String) : Finding :=
  ⟨"Maximum allowed domain length is " ++ toString DOMAIN_MAX_LENGTH ++
     ". Passed domain is too long: " ++ toString len, domain, true⟩

/-- Finding: malformed environment entry. -/
def fEnvFormat (e : String) : Finding :=
  ⟨"Environment variable " ++ e ++ " has wrong format",
   "Try use NAME=value instead of " ++ e, true⟩

/-- Finding: depends_on names an inactive or missing service. -/
def fDependsOnMissing (item dep : String) : Finding :=
  ⟨"Service \"" ++ item ++ "\" depends on of missing service \"" ++ dep ++ "\"",
   "Try remove 'depends_on' item \"" ++ dep ++ "\" from service \"" ++ item ++
     "\", or set service \"" ++ dep ++ "\" active", true⟩

/-- Finding: second environment format pass (unreachable after a successful
parse, kept for fidelity). -/
def fEnvFormat2 (e : String) : Finding :=
  ⟨"Environment variable " ++ e ++ " has wrong format", "Try use NAME=value instead", true⟩

/-- Finding: ports on a common service. -/
def fCommonPorts (item : String) : Finding :=
  ⟨"Field \"ports\" is not allowed for service \"" ++ item ++ "\"",
   "Ports is only allowed for services [" ++ joinBar SERVICES_CUSTOM ++ "]", true⟩

/-- Finding: command on a common service. -/
def fCommonCommand (item : String) : Finding :=
  ⟨"Field \"command\" is not allowed for service \"" ++ item ++ "\"",
   "Command is only allowed for services [" ++ joinBar SERVICES_CUSTOM ++ "]", true⟩

/-- Finding: active common service no custom service depends on (advisory). -/
def fCommonNoDeps (type item : String) : Finding :=
  ⟨"You have " ++ type ++ " service with name \"" ++ item ++
     "\", but none custom service depends on it",
   "Add \"depends_on\" field with item \"" ++ item ++ "\" to any custom service", false⟩

/-- Finding: required environment variable of a common service missing. -/
def fEnvRequiredMissing (item v : String) : Finding :=
  ⟨"Required environment variable for service \"" ++ item ++ "\" is missing:", v, true⟩

/-- Finding: dependent custom service does not mirror a required variable
(advisory). -/
def fEnvNotProvided (item name dep : String) : Finding :=
  ⟨"Service \"" ++ item ++ "\" provided " ++ name ++ ", but in a service " ++ dep ++
     " dependent on it is not provided",
   "Try to add environment variable " ++ name ++ " to the service " ++ dep, false⟩

/-- Finding: dependent custom service mirrors a required variable with another
value (advisory). -/
def fEnvValueMismatch (item name dep : String) : Finding :=
  ⟨"Service \"" ++ item ++ "\" provided " ++ name ++ ", but in a service " ++ dep ++
     " dependent on it this variable value is not the same",
   "Your service " ++ dep ++ " will not be able to connect to service " ++ item, false⟩

/-- One volume entry check inside checkConfig, threading the accumulated file
names of the service and the findings so far. A failed local match skips the
rest of the entry (`continue`), a failed remote match skips the absoluteness
check; filesystem checks run only when the capability is present, and the
existence/directory/size findings only in the client context. -/
def volumeStep (fsm : Option FSModel) (isServer : Bool) (item : String)
    (st : List String × List Finding) (vol : String) : List String × List Finding :=
  let volNames := st.1
  let acc := st.2
  match volumeLocalPath vol with
  | none => (volNames, acc ++ [fVolLocalBad item vol])
  | some localPath =>
    let acc := acc ++
      (match fsm with
       | none => []
       | some f =>
         if !(f.existsSync localPath) then
           if !isServer then [fVolNotExists item vol localPath] else []
         else if !isServer then
           (if f.isDirectory localPath then [fVolIsDirectory item vol] else []) ++
             (if f.statSize localPath ≥ VOLUME_UPLOAD_MAX_SIZE then
               [fVolTooBig localPath item] else [])
         else [])
    let filename := basename localPath
    let volNames2 := if volNames.contains filename then volNames else volNames ++ [filename]
    let acc := acc ++ (if volNames.contains filename then [fVolDupName item filename] else [])
    match volumeRemotePath vol with
    | none => (volNames2, acc ++ [fVolRemoteBad item vol])
    | some remotePath =>
      (volNames2,
        acc ++ (if !(isAbsolute remotePath) then [fVolRemoteNotAbs item vol remotePath] else []))

/-- Volume checks of one service: the count cap, then each entry in order; the
source's inner loop stops at the first falsy (empty) entry. -/
def volumesFindings (fsm : Option FSModel) (isServer : Bool) (item : String)
    (s : Service) : List Finding :=
  match s.volumes with
  | none => []
  | some vl =>
    (if vl.length > COUNT_OF_VOLUMES_MAX then [fTooManyVolumes item vl.length] else []) ++
      ((vl.takeWhile (fun v => v != "")).foldl (volumeStep fsm isServer item) ([], [])).2

/-- Service name check: no percent sign. -/
def nameFindings (item : String) : List Finding :=
  if item.toList.contains '%' then [fNameSymbol item] else []

/-- Service type membership check. -/
def typeFindings (s : Service) : List Finding :=
  if !(SERVICE_TYPES.contains s.type) then [fTypeNotAllowed s.type] else []

/-- The source's `_public` flag: a declared, nonempty ports list. -/
def servicePublic (s : Service) : Bool :=
  match s.ports with
  | none => false
  | some ps => ps.length > 0

/-- Public-port eligibility check for common services. -/
def publicFindings (item : String) (s : Service) : List Finding :=
  if servicePublic s && isCommonService s.type && !(isCommonServicePublic s.type) then
    [fPublicPorts item]
  else []

/-- Size membership check against the catalog. -/
def sizeFindings (dd : DeployData) (item : String) (s : Service) : List Finding :=
  if dd.sizes.any (fun z => z.name == s.size) then []
  else [fSizeNotAllowed s.size item (joinBar (dd.sizes.map (fun z => z.name)))]

/-- The hub printed in the version advisory; a missing catalog entry prints as
the JS string "undefined". -/
def hubOf (dd : DeployData) (t : String) : String :=
  match dd.services.find? (fun x => x.type == t) with
  | none => "undefined"
  | some x => x.hub

/-- Version-support advisory: fires when the version is not in the catalog tag
list and is not "latest". -/
def versionFindings (dd : DeployData) (item : String) (s : Service) : List Finding :=
  if !(checkVersion dd.services s.version s.type) && s.version != "latest" then
    [fVersionUnsupported s.version item (hubOf dd s.type)]
  else []

/-- Timeout checks of one port. -/
def timeoutFindings (item : String) (p : Port) : List Finding :=
  match p.timeout with
  | none => []
  | some t =>
    if strFalsy t then []
    else if p.type != "chunked" && p.type != "ws" then [fTimeoutNoEffect p.port item p.type]
    else
      let ds := t.toList.takeWhile Char.isDigit
      let rest := t.toList.drop ds.length
      if !(ds.length > 0 && rest.length > 0 && rest.length ≤ 2 &&
          rest.all Char.isAlpha) then
        [fTimeoutNotString p.port item t]
      else if !(PORT_TIMEOUTS.contains (String.mk rest)) then
        [fTimeoutPostfix p.port item (String.mk rest)]
      else []

/-- JS parseInt over a digit run. -/
def natOfDigits (cs : List Char) : ℕ :=
  cs.foldl (fun a c => a * 10 + (c.toNat - '0'.toNat)) 0

/-- Buffer-size checks of one port. -/
def bufferFindings (item : String) (p : Port) : List Finding :=
  match p.buffer_size with
  | none => []
  | some b =>
    if strFalsy b then []
    else if p.type != "chunked" then [fBufferNoEffect p.port item p.type]
    else
      let ds := b.toList.takeWhile Char.isDigit
      let rest := b.toList.drop ds.length
      if !(ds.length > 0 && rest == ['k']) then [fBufferNotString p.port item b]
      else if natOfDigits ds > BUFFER_SIZE_MAX then
        [fBufferTooBig p.port item (natOfDigits ds)]
      else []

/-- Character class of /^[\\//0-9A-Za-z\\-_/]+$/: in a JS class the sequence
backslash, dash, underscore is the range from backslash (0x5C) to underscore
(0x5F), so the class is backslash, slash, digits, letters and 0x5C..0x5F. -/
def isLocationChar (c : Char) : Bool :=
  c == '\\' || c == '/' || c.isAlpha || c.isDigit ||
    (0x5C ≤ c.toNat && c.toNat ≤ 0x5F)

/-- Doubled slash test /\/{2,}/. -/
def hasDoubleSlash : List Char → Bool
  | [] => false
  | [_] => false
  | a :: b :: t => (a == '/' && b == '/') || hasDoubleSlash (b :: t)

/-- Source checkLocation: allowed class, leading slash, no doubled slashes. -/
def checkLocation (location item nm : String) : List Finding :=
  (if !(location.toList.length > 0 && location.toList.all isLocationChar) then
    [fLocationSymbols nm location item] else []) ++
    (if !(isAbsolute location) then [fLocationStart nm location item] else []) ++
    (if hasDoubleSlash location.toList then [fLocationSlashes nm location item] else [])

/-- Character class of /[a-zA-Z0-9\\.\-_]/ for static.index. -/
def isStaticIndexChar (c : Char) : Bool :=
  c.isAlpha || c.isDigit || c == '\\' || c == '.' || c == '-' || c == '_'

/-- Checks of one static entry. The source computes checkLocation for the
static location as well but discards the result (res.concat with no
assignment), so that call contributes no findings. -/
def staticItemFindings (item : String) (p : Port) (loc : String)
    (si : StaticItem) : List Finding :=
  (if strFalsy si.location then [fStaticLocationRequired p.port item] else []) ++
    (if strFalsy si.path then [fStaticPathRequired p.port item] else []) ++
    (match si.index with
     | none => []
     | some ix =>
       if strFalsy ix then []
       else if !(ix.toList.any isStaticIndexChar) then [fStaticIndexSymbols p.port item]
       else []) ++
    (if loc == si.location then [fStaticLocationSame p.port item] else [])

/-- All checks of one port of a custom service, in source order. The
is-integer check of the port number cannot fire over the integer model and is
omitted from the accumulated findings. -/
def portFindings (item : String) (p : Port) : List Finding :=
  timeoutFindings item p ++
    bufferFindings item p ++
    (match p.location with
     | none => []
     | some l => if strFalsy l then [] else checkLocation l item "Location") ++
    (match p.proxy_path with
     | none => []
     | some pp =>
       if strFalsy pp then []
       else
         checkLocation pp item "Proxy path" ++
           (if p.type == "php" then [fProxyPathPhp item] else [])) ++
    (if !(PORT_TYPES.contains p.type) then [fPortTypeNotAllowed p.type item] else []) ++
    (match p.«static» with
     | none => []
     | some sl =>
       let loc :=
         match p.location with
         | none => DEFAULT_LOCATION
         | some l => if strFalsy l then DEFAULT_LOCATION else l
       sl.bind (staticItemFindings item p loc))

/-- Git checks of a declared git block; url, branch and host failures return
early out of the whole validator. -/
def gitFindings (item : String) (g : Git) : Except (List Finding) (List Finding) :=
  if strFalsy g.url then .error [fGitUrlMissing item g.url]
  else if strFalsy g.branch then .error [fGitBranchMissing item g.url]
  else if (checkGitType g.url).isNone then .error [fGitTypeWrong item]
  else
    .ok ((if (parseGitUrl g.url).isNone then [fGitParseFailed item] else []) ++
      (match g.untracked with
       | none => []
       | some u =>
         if strFalsy u then []
         else if !(GIT_UNTRACKED_POLICY.contains u) then [fGitUntracked item] else []))

/-- Custom-service checks, in source order; a missing or absolute pwd and the
fatal git failures return early out of the whole validator with the findings
accumulated so far. -/
def customFindings (services : List (String × Service)) (dd : DeployData)
    (item : String) (s : Service) : Except (List Finding) (List Finding) :=
  if !(isCustomService s.type) then .ok []
  else if optStrFalsy s.pwd then .error [fPwdMissing item]
  else
    let pwd := s.pwd.getD ""
    if isAbsolute pwd then .error [fPwdAbsolute item pwd]
    else
      let acc :=
        if !(pwd.toList.any isSegChar) && pwd != PWD_DEFAULT then [fPwdDefault item pwd]
        else []
      match (match s.git with
             | none => Except.ok []
             | some g => gitFindings item g) with
      | .error l => .error (acc ++ l)
      | .ok gl =>
        let acc := acc ++ gl
        let portsLength := (s.ports.getD []).length
        let acc := acc ++
          (match getServiceBySize dd.sizes s.size with
           | none => []
           | some z => if portsLength > z.ports then [fPortsMax item s.size z.ports] else [])
        let acc := acc ++ (s.ports.getD []).bind (portFindings item)
        let acc := acc ++
          (match s.domains with
           | none => []
           | some ds =>
             ds.bind (fun kv =>
               if kv.2.length > DOMAIN_MAX_LENGTH then [fDomainTooLong kv.2.length kv.2]
               else []))
        let acc := acc ++
          (s.environment.getD []).bind (fun e =>
            if (parseEnvironmentVariable e).isNone then [fEnvFormat e] else [])
        let acc := acc ++
          (if s.active then
            (s.depends_on.getD []).bind (fun dep =>
              if !(match lookupL services dep with
                   | none => false
                   | some sd => sd.active) then [fDependsOnMissing item dep]
              else [])
          else [])
        let acc := acc ++
          (s.environment.getD []).bind (fun e =>
            match parseEnvironmentVariable e with
            | none => []
            | some v => if strFalsy v.name then [fEnvFormat2 e] else [])
        .ok acc

/-- The source's checkDeps scan: some custom service declares depends_on
naming this one (forEach return values do not break the loop). -/
def checkDepsOn (services : List (String × Service)) (item : String) : Bool :=
  (services.map Prod.fst).any (fun k2 =>
    match lookupL services k2 with
    | none => false
    | some sd =>
      isCustomService sd.type &&
        (match sd.depends_on with
         | none => false
         | some dl => dl.contains item))

/-- One step of the source's check/_envVal forEach over a dependent service's
environment: a declared entry of the sought name turns the flag on and keeps
its value, so the last declaration wins. -/
def envMirrorStep (n : String) (st : Bool × Option String) (e : String) :
    Bool × Option String :=
  match getEnvironmentName e with
  | some en => if en == n then (true, getEnvironmentValue e) else st
  | none => st

/-- The mirrored-variable scan of one dependent service for one required
variable set by the common service: the fold keeps the last declared value
under the name, as the source's forEach does. -/
def envScanDep (item n v : String) (depKey : String) (sd : Service) : List Finding :=
  match sd.depends_on with
  | none => []
  | some dl =>
    if !(dl.contains item) then []
    else if !(isCustomService sd.type) then []
    else
      match sd.environment with
      | none => []
      | some el =>
        let cv := el.foldl (envMirrorStep n) (false, none)
        (if !cv.1 && n != ENVIRONMENT_SWITCH_mysql_rootPassword then
          [fEnvNotProvided item n depKey] else []) ++
          (if some v != cv.2 && cv.1 then [fEnvValueMismatch item n depKey] else [])

/-- Scan of one environment entry of an active common service: when it parses
and its name is required for the type, every declared service is examined. -/
def commonEnvEntryScan (services : List (String × Service)) (item : String)
    (commonVars : List String) (e : String) : List Finding :=
  match parseEnvironmentVariable e with
  | none => []
  | some var =>
    if commonVars.contains var.name then
      (services.map Prod.fst).bind (fun k2 =>
        match lookupL services k2 with
        | none => []
        | some sd => envScanDep item var.name var.value k2 sd)
    else []

/-- Common-service checks, in source order. -/
def commonFindings (services : List (String × Service)) (item : String)
    (s : Service) : List Finding :=
  if !(isCommonService s.type) then []
  else
    (if s.ports.isSome then [fCommonPorts item] else []) ++
      (if !(optStrFalsy s.command) then [fCommonCommand item] else []) ++
      (if s.active then
        (if !(checkDepsOn services item) && !(servicePublic s) &&
            !(SERVICES_COMMON_PUBLIC.contains s.type) then
          [fCommonNoDeps s.type item] else []) ++
          (ENVIRONMENT_REQUIRED_COMMON s.type).bind (fun cv =>
            if (s.environment.getD []).any (fun e =>
                match parseEnvironmentVariable e with
                | none => false
                | some var => var.name == cv) then []
            else [fEnvRequiredMissing item cv]) ++
          (s.environment.getD []).bind
            (commonEnvEntryScan services item (ENVIRONMENT_REQUIRED_COMMON s.type))
      else [])

/-- All checks of one declared service, in source order. `.error` carries the
findings of an early `return res` (missing version, custom pwd/git failures)
that aborts the whole validator. -/
def perService (services : List (String × Service)) (dd : DeployData)
    (fsm : Option FSModel) (isServer : Bool) (item : String) (s : Service) :
    Except (List Finding) (List Finding) :=
  let acc := volumesFindings fsm isServer item s ++ nameFindings item ++
    typeFindings s ++ publicFindings item s
  if strFalsy s.version then .error (acc ++ [fVersionMissing item])
  else
    let acc := acc ++ sizeFindings dd item s ++ versionFindings dd item s
    match customFindings services dd item s with
    | .error l => .error (acc ++ l)
    | .ok cl => .ok (acc ++ cl ++ commonFindings services item s)

/-- The entries the outer service loop visits: `for (let i = 0;
serviceKeys[i]; i++)` stops at the first falsy (empty) key; the keys of a JS
object are unique, so iterating the entries equals iterating the keys with a
lookup each. -/
def processedPairs (services : List (String × Service)) :
    List (String × Service) :=
  services.takeWhile (fun p => p.1 != "")

/-- The outer service loop, accumulating findings until an early return. -/
def goServices (services : List (String × Service)) (dd : DeployData)
    (fsm : Option FSModel) (isServer : Bool) :
    List (String × Service) → List Finding → Except (List Finding) (List Finding)
  | [], acc => .ok acc
  | (k, s) :: rest, acc =>
    match perService services dd fsm isServer k s with
    | .error l => .error (acc ++ l)
    | .ok l => goServices services dd fsm isServer rest (acc ++ l)

/-- Validator pipeline before the final sort: `.error` is a list returned by
an early `return res` (and so never sorted), `.ok` a completed accumulation. -/
def checkConfigExc (cfg : ConfigFile) (deployData : Option DeployData)
    (fsm : Option FSModel) (isServer : Bool) :
    Except (List Finding) (List Finding) :=
  match deployData with
  | none => .error [fDeployDataMissing]
  | some dd =>
    let afterServer : Except (List Finding) Unit :=
      match cfg.server with
      | some srv =>
        if optStrFalsy srv.node_name then .error [fServerNodeName] else .ok ()
      | none => .ok ()
    match afterServer with
    | .error l => .error l
    | .ok _ =>
      match cfg.services with
      | none => .error [fServicesMissing]
      | some services =>
        if services.length == 0 then .error [fServicesEmpty]
        else goServices services dd fsm isServer (processedPairs services) []

/-- One comparator placement step of the source's final `res.sort`: the
comparator orders a before b exactly when a is advisory and b fatal.
Array.prototype.sort with this inconsistent comparator is modelled as
comparison-based insertion sort. -/
def insertFinding (a : Finding) : List Finding → List Finding
  | [] => [a]
  | b :: t => if !a.exit && b.exit then a :: b :: t else b :: insertFinding a t

/-- Comparison sort over the comparator of the source's final `res.sort`. -/
def sortFindings : List Finding → List Finding
  | [] => []
  | a :: t => insertFinding a (sortFindings t)

/-- Source checkConfig: the early returns come back unsorted, a completed
accumulation is sorted advisories-first. -/
def checkConfig (cfg : ConfigFile) (deployData : Option DeployData)
    (fsm : Option FSModel) (isServer : Bool) : List Finding :=
  match checkConfigExc cfg deployData fsm isServer with
  | .error l => l
  | .ok l => sortFindings l

/-- Whether an Except is an ok value. -/
def exceptOk {α β : Type} : Except α β → Bool
  | .ok _ => true
  | .error _ => false

/-- Whether every advisory finding stands before every fatal one: after
dropping the advisory head of the list, only fatal findings remain. -/
def partitionedB (l : List Finding) : Bool :=
  (l.dropWhile (fun f => !f.exit)).all (fun f => f.exit)

/-- Whether the server block, when present, carries a truthy node_name. -/
def serverOk (cfg : ConfigFile) : Bool :=
  match cfg.server with
  | none => true
  | some srv => !(optStrFalsy srv.node_name)

/-- Mutable state of one changeConfigFileVolumes call: the `config` binding
(the caller's object), the `_config` deep clone, the `_volumes` side map and
the `error` cell. Every JS assignment of the source is one update of this
state; the theorems below show none touches `orig`. -/
structure VolState where
  orig : ConfigFile
  clone : ConfigFile
  varVolumes : List (String × List String)
  error : Option String
deriving DecidableEq, Repr

/-- Update of the first entry of the given key (a JS object holds one). -/
def updateServicePairs (ps : List (String × Service)) (key : String)
    (f : Service → Service) : List (String × Service) :=
  match ps with
  | [] => []
  | (k, s) :: t =>
    if k == key then (k, f s) :: t else (k, s) :: updateServicePairs t key f

/-- JS `_config.services[key] = ...`-style write through the clone. -/
def updateCloneService (st : VolState) (key : String) (f : Service → Service) :
    VolState :=
  { st with
    clone :=
      { st.clone with
        services := st.clone.services.map (fun ps => updateServicePairs ps key f) } }

/-- JS `_volumes[key] = l` (insert or overwrite). -/
def upsertVar (vs : List (String × List String)) (key : String) (l : List String) :
    List (String × List String) :=
  match vs with
  | [] => [(key, l)]
  | (k, v) :: t => if k == key then (k, l) :: t else (k, v) :: upsertVar t key l

/-- JS `_volumes[key].push(x)`; the source always initializes the key first. -/
def pushVar (vs : List (String × List String)) (key x : String) :
    List (String × List String) :=
  match vs with
  | [] => []
  | (k, v) :: t => if k == key then (k, v ++ [x]) :: t else (k, v) :: pushVar t key x

/-- JS `_config.services[key].volumes?.push(x)`: appends when the list is
present, no-op otherwise (optional chaining). -/
def pushVolume (x : String) (s : Service) : Service :=
  { s with volumes := s.volumes.map (fun vl => vl ++ [x]) }

/-- JS `_config.services[key].volumes = v`. -/
def setVolumes (v : Option (List String)) (s : Service) : Service :=
  { s with volumes := v }

/-- One volume entry of materialize mode. Entries without an http(s) head pass
through to the clone; headed entries are split by the local/remote regexes,
fetched through the oracle, written to the temp path and rewritten, with the
original entry recorded in the side map; each failure sets the error cell,
which breaks the loops. -/
def matVolume (fetch : String → Except String String) (tmp userId name serviceKey : String)
    (st : VolState) (volume : String) : VolState :=
  if st.error.isSome then st
  else
    match httpHead volume with
    | none => updateCloneService st serviceKey (pushVolume volume)
    | some http =>
      let volume := volume.drop http.length
      match volumeLocalPath volume with
      | none =>
        { st with
          error := some ("Volume local in service \"" ++ serviceKey ++
            "\" has wrong value '" ++ volume ++ "'") }
      | some localPath =>
        match volumeFilename localPath with
        | none =>
          { st with
            error := some ("Local value of volume '" ++ volume ++
              "' has wrong filename in service \"" ++ serviceKey ++ "\"") }
        | some filename =>
          match volumeRemotePath volume with
          | none =>
            { st with
              error := some ("Volume remote in service \"" ++ serviceKey ++
                "\" has wrong value '" ++ volume ++ "'") }
          | some remote =>
            match fetch (http ++ localPath) with
            | .error e => { st with error := some e }
            | .ok _file =>
              let tmpFilePath := resolvePath tmp
                (userId ++ "_" ++ name ++ "_" ++ serviceKey ++ "_" ++ filename)
              let st := updateCloneService st serviceKey
                (pushVolume (tmpFilePath ++ ":" ++ remote))
              { st with varVolumes := pushVar st.varVolumes serviceKey (http ++ volume) }

/-- Materialize mode for one service: reset the clone's list and the side
entry, then walk the declared entries (the source's inner loop stops at the
first falsy entry). -/
def matService (fetch : String → Except String String) (tmp userId name : String)
    (st : VolState) (serviceKey : String) (s : Service) : VolState :=
  match s.volumes with
  | none => st
  | some vl =>
    let st := updateCloneService st serviceKey (setVolumes (some []))
    let st := { st with varVolumes := upsertVar st.varVolumes serviceKey [] }
    (vl.takeWhile (fun v => v != "")).foldl (matVolume fetch tmp userId name serviceKey) st

/-- Materialize mode over the visited entries; a set error cell breaks the
loop at its head check. -/
def matLoop (fetch : String → Except String String) (tmp userId name : String) :
    List (String × Service) → VolState → VolState
  | [], st => st
  | (k, s) :: rest, st =>
    if st.error.isSome then st
    else matLoop fetch tmp userId name rest (matService fetch tmp userId name st k s)

/-- Replay mode over the visited entries: a service with a declared volume
list has it replaced by the caller-supplied list for its key (absence replaces
with undefined). -/
def replayLoop (vols : List (String × List String)) :
    List (String × Service) → VolState → VolState
  | [], st => st
  | (k, s) :: rest, st =>
    if st.error.isSome then st
    else
      replayLoop vols rest
        (if s.volumes.isSome then updateCloneService st k (setVolumes (lookupL vols k))
         else st)

/-- Returned record of changeConfigFileVolumes. -/
structure ChangeResult where
  config : ConfigFile
  volumes : Option (List (String × List String))
  error : Option String
deriving DecidableEq, Repr

/-- Source changeConfigFileVolumes as a state machine: the final state is kept
alongside the returned record so the frame theorems can speak about the
caller's object. The guards return the original object with the argument map
and an error; both mode loops end at the shared final return, which hands
back the clone, the side map and a hardcoded `error: null` (the source
discards the error cell there). -/
def changeConfigFileVolumesRun (config : ConfigFile) (userId : String)
    (volumes : Option (List (String × List String)))
    (fetch : String → Except String String) (tmp : String) :
    VolState × ChangeResult :=
  let st : VolState := { orig := config, clone := config, varVolumes := [], error := none }
  if strFalsy config.name then
    (st, { config := st.orig, volumes := volumes,
           error := some "Project name is missing in config" })
  else
    match config.services with
    | none =>
      (st, { config := st.orig, volumes := volumes,
             error := some "Field services is missing in config" })
    | some services =>
      match volumes with
      | none =>
        if strFalsy userId then
          (st, { config := st.orig, volumes := none,
                 error := some "User id is missing in changeVolumes" })
        else
          let st := matLoop fetch tmp userId config.name (processedPairs services) st
          (st, { config := st.clone, volumes := some st.varVolumes, error := none })
      | some vols =>
        let st := replayLoop vols (processedPairs services) st
        (st, { config := st.clone, volumes := some st.varVolumes, error := none })

/-- Source changeConfigFileVolumes: the returned record alone. -/
def changeConfigFileVolumes (config : ConfigFile) (userId : String)
    (volumes : Option (List (String × List String)))
    (fetch : String → Except String String) (tmp : String) : ChangeResult :=
  (changeConfigFileVolumesRun config userId volumes fetch tmp).2

theorem mem_insertFinding {x a : Finding} : ∀ {l : List Finding},
    x ∈ insertFinding a l ↔ x = a ∨ x ∈ l := by
  intro l
  induction l with
  | nil => simp [insertFinding]
  | cons b t ih =>
    simp only [insertFinding]
    split
    · simp [List.mem_cons]
    · simp only [List.mem_cons, ih]
      tauto

theorem mem_sortFindings {x : Finding} : ∀ {l : List Finding},
    x ∈ sortFindings l ↔ x ∈ l := by
  intro l
  induction l with
  | nil => simp [sortFindings]
  | cons a t ih => simp [sortFindings, mem_insertFinding, ih]

theorem partitionedB_cons_adv {f : Finding} {l : List Finding} (h : f.exit = false) :
    partitionedB (f :: l) = partitionedB l := by
  simp [partitionedB, List.dropWhile, h]

theorem partitionedB_cons_fatal {f : Finding} {l : List Finding} (h : f.exit = true) :
    partitionedB (f :: l) = l.all (fun g => g.exit) := by
  simp [partitionedB, List.dropWhile, h]

theorem all_exit_partitionedB {l : List Finding}
    (h : l.all (fun g => g.exit) = true) : partitionedB l = true := by
  cases l with
  | nil => rfl
  | cons f t =>
    simp only [List.all_cons, Bool.and_eq_true] at h
    rw [partitionedB_cons_fatal h.1]
    exact h.2

theorem insertFinding_all_exit {a : Finding} (ha : a.exit = true) :
    ∀ {l : List Finding}, l.all (fun g => g.exit) = true →
      (insertFinding a l).all (fun g => g.exit) = true := by
  intro l
  induction l with
  | nil => intro _; simp [insertFinding, ha]
  | cons b t ih =>
    intro h
    simp only [List.all_cons, Bool.and_eq_true] at h
    have hc : (!a.exit && b.exit) = false := by simp [ha]
    simp only [insertFinding, hc]
    simp [List.all_cons, h.1, ih h.2]

theorem insertFinding_partitioned {a : Finding} : ∀ {l : List Finding},
    partitionedB l = true → partitionedB (insertFinding a l) = true := by
  intro l
  induction l with
  | nil =>
    intro _
    cases ha : a.exit
    · simp [insertFinding, partitionedB, List.dropWhile, ha]
    · simp [insertFinding, partitionedB, List.dropWhile, ha]
  | cons b t ih =>
    intro h
    simp only [insertFinding]
    split
    · rename_i hc
      have ha : a.exit = false := by
        rcases Bool.and_eq_true_iff.mp hc with ⟨h1, _⟩
        simpa using h1
      rw [partitionedB_cons_adv ha]
      exact h
    · rename_i hc
      cases hb : b.exit
      · rw [partitionedB_cons_adv hb] at h ⊢
        exact ih h
      · have ha : a.exit = true := by
          by_contra hfa
          have ha' : a.exit = false := by
            cases hx : a.exit
            · rfl
            · exact absurd hx hfa
          exact hc (by simp [ha', hb])
        rw [partitionedB_cons_fatal hb] at h ⊢
        exact insertFinding_all_exit ha h

theorem sortFindings_partitioned : ∀ l : List Finding,
    partitionedB (sortFindings l) = true := by
  intro l
  induction l with
  | nil => rfl
  | cons a t ih => exact insertFinding_partitioned ih

theorem goServices_acc_mem {svcs : List (String × Service)} {dd : DeployData}
    {fsm : Option FSModel} {b : Bool} :
    ∀ {pairs : List (String × Service)} {acc L : List Finding},
      goServices svcs dd fsm b pairs acc = .ok L → ∀ x ∈ acc, x ∈ L := by
  intro pairs
  induction pairs with
  | nil =>
    intro acc L h x hx
    simp only [goServices] at h
    rw [← Except.ok.inj h]
    exact hx
  | cons p rest ih =>
    intro acc L h x hx
    obtain ⟨k, s⟩ := p
    simp only [goServices] at h
    cases hps : perService svcs dd fsm b k s with
    | error l =>
      rw [hps] at h
      exact Except.noConfusion h
    | ok l =>
      rw [hps] at h
      exact ih h x (List.mem_append_left _ hx)

theorem goServices_mem {svcs : List (String × Service)} {dd : DeployData}
    {fsm : Option FSModel} {b : Bool} {k : String} {s : Service} :
    ∀ {pairs : List (String × Service)} {acc L : List Finding},
      goServices svcs dd fsm b pairs acc = .ok L → (k, s) ∈ pairs →
      ∃ ls, perService svcs dd fsm b k s = .ok ls ∧ ∀ f ∈ ls, f ∈ L := by
  intro pairs
  induction pairs with
  | nil =>
    intro acc L _ hk
    exact absurd hk (List.not_mem_nil (k, s))
  | cons p rest ih =>
    intro acc L h hk
    obtain ⟨k', s'⟩ := p
    simp only [goServices] at h
    cases hps : perService svcs dd fsm b k' s' with
    | error l =>
      rw [hps] at h
      exact Except.noConfusion h
    | ok l =>
      rw [hps] at h
      rcases List.mem_cons.mp hk with h1 | h1
      · have hk2 : k' = k ∧ s' = s := by
          constructor
          · exact (congrArg Prod.fst h1).symm
          · exact (congrArg Prod.snd h1).symm
        obtain ⟨e1, e2⟩ := hk2
        subst e1
        subst e2
        exact ⟨l, hps, fun f hf => goServices_acc_mem h f (List.mem_append_right _ hf)⟩
      · exact ih h h1

theorem goServices_append {svcs : List (String × Service)} {dd : DeployData}
    {fsm : Option FSModel} {b : Bool} :
    ∀ {pairs1 pairs2 : List (String × Service)} {acc a : List Finding},
      goServices svcs dd fsm b pairs1 acc = .ok a →
      goServices svcs dd fsm b (pairs1 ++ pairs2) acc =
        goServices svcs dd fsm b pairs2 a := by
  intro pairs1
  induction pairs1 with
  | nil =>
    intro pairs2 acc a h
    simp only [goServices] at h
    rw [List.nil_append, Except.ok.inj h]
  | cons p rest ih =>
    intro pairs2 acc a h
    obtain ⟨k, s⟩ := p
    simp only [goServices] at h
    simp only [List.cons_append, goServices]
    cases hps : perService svcs dd fsm b k s with
    | error l =>
      rw [hps] at h
      exact Except.noConfusion h
    | ok l =>
      rw [hps] at h
      exact ih h

theorem common_not_custom {t : String} (h : isCommonService t = true) :
    isCustomService t = false := by
  have hmem : t ∈ SERVICES_COMMON := by
    simpa [isCommonService] using h
  simp only [SERVICES_COMMON, List.mem_cons, List.mem_singleton,
    List.not_mem_nil, or_false] at hmem
  rcases hmem with h1 | h1 | h1 | h1 | h1 | h1 | h1 | h1 | h1 | h1 <;>
    subst h1 <;> decide

theorem updateCloneService_orig (st : VolState) (k : String) (f : Service → Service) :
    (updateCloneService st k f).orig = st.orig := rfl

theorem matVolume_orig (fetch : String → Except String String)
    (tmp userId name sk : String) (st : VolState) (v : String) :
    (matVolume fetch tmp userId name sk st v).orig = st.orig := by
  unfold matVolume
  split
  · rfl
  split
  · rfl
  dsimp only
  repeat' split
  all_goals rfl

theorem matFold_orig (fetch : String → Except String String) (tmp u n sk : String) :
    ∀ (l : List String) (st : VolState),
      (l.foldl (matVolume fetch tmp u n sk) st).orig = st.orig := by
  intro l
  induction l with
  | nil => intro st; rfl
  | cons v t ih =>
    intro st
    rw [List.foldl_cons, ih, matVolume_orig]

theorem matService_orig (fetch : String → Except String String) (tmp u n : String)
    (st : VolState) (k : String) (s : Service) :
    (matService fetch tmp u n st k s).orig = st.orig := by
  unfold matService
  split
  · rfl
  · rw [matFold_orig]
    rfl

theorem matLoop_orig (fetch : String → Except String String) (tmp u n : String) :
    ∀ (pairs : List (String × Service)) (st : VolState),
      (matLoop fetch tmp u n pairs st).orig = st.orig := by
  intro pairs
  induction pairs with
  | nil => intro st; rfl
  | cons p rest ih =>
    intro st
    obtain ⟨k, s⟩ := p
    simp only [matLoop]
    split
    · rfl
    · rw [ih, matService_orig]

theorem replayLoop_orig (vols : List (String × List String)) :
    ∀ (pairs : List (String × Service)) (st : VolState),
      (replayLoop vols pairs st).orig = st.orig := by
  intro pairs
  induction pairs with
  | nil => intro st; rfl
  | cons p rest ih =>
    intro st
    obtain ⟨k, s⟩ := p
    simp only [replayLoop]
    split
    · rfl
    · rw [ih]
      split <;> rfl

theorem lookupL_of_mem_nodup {α : Type} :
    ∀ {ps : List (String × α)} {k : String} {v : α},
      (ps.map Prod.fst).Nodup → (k, v) ∈ ps → lookupL ps k = some v := by
  intro ps
  induction ps with
  | nil =>
    intro k v _ h
    exact absurd h (List.not_mem_nil _)
  | cons p t ih =>
    intro k v hnd h
    obtain ⟨k', v'⟩ := p
    simp only [List.map_cons, List.nodup_cons] at hnd
    rcases List.mem_cons.mp h with h1 | h1
    · have e1 : k = k' := congrArg Prod.fst h1
      have e2 : v = v' := congrArg Prod.snd h1
      subst e1
      subst e2
      simp [lookupL]
    · have hk : k ∈ t.map Prod.fst := by
        have := List.mem_map_of_mem Prod.fst h1
        simpa using this
      have hne : (k' == k) = false := by
        refine beq_eq_false_iff_ne.mpr ?_
        intro e
        subst e
        exact hnd.1 hk
      simp [lookupL, hne, ih hnd.2 h1]

theorem lookupL_upsertVar_self (l : List String) :
    ∀ (vs : List (String × List String)) (key : String),
      lookupL (upsertVar vs key l) key = some l := by
  intro vs
  induction vs with
  | nil => intro key; simp [upsertVar, lookupL]
  | cons p t ih =>
    intro key
    obtain ⟨k', v'⟩ := p
    simp only [upsertVar]
    cases h : k' == key
    · simp [lookupL, h, ih]
    · simp [lookupL, h]

theorem lookupL_upsertVar_ne (l : List String) {k key : String} (hne : ¬k = key) :
    ∀ (vs : List (String × List String)),
      lookupL (upsertVar vs key l) k = lookupL vs k := by
  intro vs
  induction vs with
  | nil =>
    have h : (key == k) = false := beq_eq_false_iff_ne.mpr (fun e => hne e.symm)
    simp [upsertVar, lookupL, h]
  | cons p t ih =>
    obtain ⟨k', v'⟩ := p
    simp only [upsertVar]
    cases h : k' == key
    · simp [lookupL, h, ih]
    · have e : k' = key := eq_of_beq h
      subst e
      have h2 : (k' == k) = false := beq_eq_false_iff_ne.mpr (fun e => hne e.symm)
      simp [lookupL, h2]

theorem lookupL_pushVar_isSome (k2 x k : String) :
    ∀ (vs : List (String × List String)),
      (lookupL (pushVar vs k2 x) k).isSome = (lookupL vs k).isSome := by
  intro vs
  induction vs with
  | nil => rfl
  | cons p t ih =>
    obtain ⟨k', v'⟩ := p
    simp only [pushVar]
    cases h : k' == k2
    · simp only [lookupL]
      cases h2 : k' == k
      · simp [h2, ih]
      · simp [h2]
    · simp only [lookupL]
      cases h2 : k' == k
      · simp [h2, ih]
      · simp [h2]

theorem matVolume_var_isSome (fetch : String → Except String String)
    (tmp u n sk : String) (st : VolState) (v k : String) :
    (lookupL (matVolume fetch tmp u n sk st v).varVolumes k).isSome =
      (lookupL st.varVolumes k).isSome := by
  unfold matVolume
  split
  · rfl
  split
  · rfl
  dsimp only
  repeat' split
  all_goals first
    | rfl
    | simp [updateCloneService, lookupL_pushVar_isSome]

theorem matFold_var_isSome (fetch : String → Except String String)
    (tmp u n sk k : String) :
    ∀ (l : List String) (st : VolState),
      (lookupL (List.foldl (matVolume fetch tmp u n sk) st l).varVolumes k).isSome =
        (lookupL st.varVolumes k).isSome := by
  intro l
  induction l with
  | nil => intro st; rfl
  | cons v t ih =>
    intro st
    rw [List.foldl_cons, ih, matVolume_var_isSome]

theorem matService_var_dom (fetch : String → Except String String)
    (tmp u n : String) (st : VolState) (sk : String) (s : Service) (k : String) :
    (lookupL (matService fetch tmp u n st sk s).varVolumes k).isSome = true →
    (lookupL st.varVolumes k).isSome = true ∨
      (k = sk ∧ s.volumes.isSome = true) := by
  unfold matService
  cases hv : s.volumes with
  | none =>
    intro h
    exact .inl h
  | some vl =>
    intro h
    rw [matFold_var_isSome] at h
    by_cases hk : k = sk
    · exact .inr ⟨hk, rfl⟩
    · left
      have hch : (lookupL (upsertVar st.varVolumes sk []) k).isSome = true := h
      rw [lookupL_upsertVar_ne [] hk] at hch
      exact hch

theorem matLoop_var_dom (fetch : String → Except String String)
    (tmp u n : String) {k : String} :
    ∀ (pairs : List (String × Service)) (st : VolState),
      (lookupL (matLoop fetch tmp u n pairs st).varVolumes k).isSome = true →
      (lookupL st.varVolumes k).isSome = true ∨
        ∃ s, (k, s) ∈ pairs ∧ s.volumes.isSome = true := by
  intro pairs
  induction pairs with
  | nil =>
    intro st h
    exact .inl h
  | cons p rest ih =>
    intro st h
    obtain ⟨k', s'⟩ := p
    simp only [matLoop] at h
    by_cases he : st.error.isSome = true
    · rw [if_pos he] at h
      exact .inl h
    · rw [if_neg he] at h
      rcases ih _ h with h1 | ⟨s, hs1, hs2⟩
      · rcases matService_var_dom fetch tmp u n st k' s' k h1 with h2 | ⟨e, hvs⟩
        · exact .inl h2
        · subst e
          exact .inr ⟨s', List.mem_cons_self _ _, hvs⟩
      · exact .inr ⟨s, List.mem_cons_of_mem _ hs1, hs2⟩

theorem updateServicePairs_fst (k : String) (f : Service → Service) :
    ∀ (ps : List (String × Service)),
      (updateServicePairs ps k f).map Prod.fst = ps.map Prod.fst := by
  intro ps
  induction ps with
  | nil => rfl
  | cons p t ih =>
    obtain ⟨k', v'⟩ := p
    simp only [updateServicePairs]
    cases h : k' == k
    · simp [ih]
    · simp

theorem lookupL_updateServicePairs_self (k : String) (f : Service → Service) :
    ∀ (ps : List (String × Service)),
      lookupL (updateServicePairs ps k f) k = (lookupL ps k).map f := by
  intro ps
  induction ps with
  | nil => rfl
  | cons p t ih =>
    obtain ⟨k', v'⟩ := p
    simp only [updateServicePairs]
    cases h : k' == k
    · simp [lookupL, h, ih]
    · simp [lookupL, h]

theorem lookupL_updateServicePairs_ne (key : String) (f : Service → Service)
    {k : String} (hne : ¬k = key) :
    ∀ (ps : List (String × Service)),
      lookupL (updateServicePairs ps key f) k = lookupL ps k := by
  intro ps
  induction ps with
  | nil => rfl
  | cons p t ih =>
    obtain ⟨k', v'⟩ := p
    simp only [updateServicePairs]
    cases h : k' == key
    · simp [lookupL, h, ih]
    · have e : k' = key := eq_of_beq h
      subst e
      have h2 : (k' == k) = false := beq_eq_false_iff_ne.mpr (fun e => hne e.symm)
      simp [lookupL, h2]

theorem replayLoop_untouched {vols : List (String × List String)} {k : String} :
    ∀ {pairs : List (String × Service)} {st : VolState}
      {cs : List (String × Service)},
      k ∉ pairs.map Prod.fst → st.clone.services = some cs →
      ∃ cs', (replayLoop vols pairs st).clone.services = some cs' ∧
        lookupL cs' k = lookupL cs k := by
  intro pairs
  induction pairs with
  | nil =>
    intro st cs _ hcs
    exact ⟨cs, hcs, rfl⟩
  | cons p rest ih =>
    intro st cs hk hcs
    obtain ⟨k', s'⟩ := p
    simp only [List.map_cons, List.mem_cons] at hk
    push_neg at hk
    simp only [replayLoop]
    split
    · exact ⟨cs, hcs, rfl⟩
    · split
      · have hcs1 : (updateCloneService st k' (setVolumes (lookupL vols k'))).clone.services =
            some (updateServicePairs cs k' (setVolumes (lookupL vols k'))) := by
          simp [updateCloneService, hcs]
        obtain ⟨cs', h1, h2⟩ := ih hk.2 hcs1
        refine ⟨cs', h1, ?_⟩
        rw [h2, lookupL_updateServicePairs_ne k' _ hk.1]
      · exact ih hk.2 hcs

theorem replayLoop_sets {vols : List (String × List String)} {k : String}
    {s : Service} :
    ∀ {pairs : List (String × Service)} {st : VolState}
      {cs : List (String × Service)},
      st.error = none → st.clone.services = some cs →
      (pairs.map Prod.fst).Nodup → (k, s) ∈ pairs → s.volumes.isSome = true →
      ∃ cs', (replayLoop vols pairs st).clone.services = some cs' ∧
        lookupL cs' k = (lookupL cs k).map (setVolumes (lookupL vols k)) := by
  intro pairs
  induction pairs with
  | nil =>
    intro st cs _ _ _ hmem
    exact absurd hmem (List.not_mem_nil _)
  | cons p rest ih =>
    intro st cs herr hcs hnd hmem hvol
    obtain ⟨k', s'⟩ := p
    simp only [List.map_cons, List.nodup_cons] at hnd
    simp only [replayLoop]
    rw [if_neg (by simp [herr])]
    rcases List.mem_cons.mp hmem with h1 | h1
    · have e1 : k = k' := congrArg Prod.fst h1
      have e2 : s = s' := congrArg Prod.snd h1
      subst e1
      subst e2
      rw [if_pos hvol]
      have hcs1 : (updateCloneService st k (setVolumes (lookupL vols k))).clone.services =
          some (updateServicePairs cs k (setVolumes (lookupL vols k))) := by
        simp [updateCloneService, hcs]
      obtain ⟨cs', hc1, hc2⟩ := replayLoop_untouched hnd.1 hcs1
      refine ⟨cs', hc1, ?_⟩
      rw [hc2, lookupL_updateServicePairs_self]
    · have hkrest : k ∈ rest.map Prod.fst := by
        have := List.mem_map_of_mem Prod.fst h1
        simpa using this
      have hkne : ¬k = k' := by
        intro e
        subst e
        exact hnd.1 hkrest
      split
      · have hcs1 : (updateCloneService st k' (setVolumes (lookupL vols k'))).clone.services =
            some (updateServicePairs cs k' (setVolumes (lookupL vols k'))) := by
          simp [updateCloneService, hcs]
        have herr2 : (updateCloneService st k' (setVolumes (lookupL vols k'))).error = none :=
          herr
        obtain ⟨cs', hc1, hc2⟩ := ih herr2 hcs1 hnd.2 h1 hvol
        refine ⟨cs', hc1, ?_⟩
        rw [hc2, lookupL_updateServicePairs_ne k' _ hkne]
      · exact ih herr hcs hnd.2 h1 hvol

/-- Catalog used by the concrete instances below: one node image with tag 9.9
and one size mili. -/
def ddExample : DeployData :=
  { services := [⟨"node", "node", "img", ["9.9"], "H/"⟩],
    sizes := [⟨"mili", ⟨"1gb", 100⟩, 1, "10gb", 3⟩], baseValue := 1000, baseCost := 1 }

/-- C3: with a null catalog, checkConfig returns exactly one finding, that
finding is fatal, and no per-service checks are performed (the output is the
deploy-data finding alone, for every config, filesystem state and context). -/
theorem checkConfig_missingCatalog (cfg : ConfigFile) (fsm : Option FSModel)
    (isServer : Bool) :
    checkConfig cfg none fsm isServer = [fDeployDataMissing] ∧
      fDeployDataMissing.exit = true :=
  ⟨rfl, rfl⟩

/-- C10: a present server block with a falsy node_name makes checkConfig
return exactly the fatal node_name finding, preempting every other check —
including the missing-services and empty-services structural checks. -/
theorem checkConfig_serverNodeNamePreempts (cfg : ConfigFile) (dd : DeployData)
    (fsm : Option FSModel) (isServer : Bool) (srv : ServerSpec)
    (hsrv : cfg.server = some srv) (hnn : optStrFalsy srv.node_name = true) :
    checkConfig cfg (some dd) fsm isServer = [fServerNodeName] := by
  unfold checkConfig checkConfigExc
  rw [hsrv]
  simp [hnn]

/-- Config with a server block lacking node_name and no services at all. -/
def cfgC10w : ConfigFile :=
  { name := "p", server := some { node_name := none, api_key := some "k" },
    services := none }

/-- C10 witness: the node_name finding preempts even the missing services
field. -/
theorem checkConfig_serverNodeNamePreempts_witness :
    checkConfig cfgC10w (some ddExample) none true = [fServerNodeName] :=
  checkConfig_serverNodeNamePreempts cfgC10w ddExample none true
    { node_name := none, api_key := some "k" } rfl rfl

/-- C5 (amended): whenever the validator runs to completion (no early
return), the returned list is a two-bucket partition with every advisory
before every fatal finding; the early-returned lists skip the final sort and
carry no such guarantee. -/
theorem checkConfig_completedRunPartitioned (cfg : ConfigFile)
    (deployData : Option DeployData) (fsm : Option FSModel) (isServer : Bool)
    (hok : exceptOk (checkConfigExc cfg deployData fsm isServer) = true) :
    partitionedB (checkConfig cfg deployData fsm isServer) = true := by
  unfold checkConfig
  cases h : checkConfigExc cfg deployData fsm isServer with
  | error l =>
    rw [h] at hok
    simp [exceptOk] at hok
  | ok l => exact sortFindings_partitioned l

/-- Single service with a bad size (fatal), an unsupported version (advisory)
and no pwd, so the validator early-returns after pushing all three. -/
def cfgC5x : ConfigFile :=
  { name := "p",
    services := some [("a",
      { active := false, type := "node", size := "bad", version := "0.1" })] }

/-- C5 counterexample: an early-returned list is [fatal, advisory, fatal] —
the advisory at position 1 stands after the fatal at position 0, so not every
advisory precedes every fatal. -/
theorem checkConfig_orderingUnsorted_cex :
    (checkConfig cfgC5x (some ddExample) none true).map Finding.exit =
      [true, false, true] := by decide

/-- Like cfgC5x but with a pwd, so the same advisory and fatal findings come
back from a completed, sorted run. -/
def cfgC5w : ConfigFile :=
  { name := "p",
    services := some [("a",
      { active := false, type := "node", size := "bad", version := "0.1",
        pwd := some "./" })] }

/-- C5 witness: a completed run with one advisory and one fatal finding is
partitioned. -/
theorem checkConfig_completedRunPartitioned_witness :
    partitionedB (checkConfig cfgC5w (some ddExample) none true) = true :=
  checkConfig_completedRunPartitioned cfgC5w (some ddExample) none true (by decide)

/-- Service whose first volume entry has a malformed local part after its
https head, followed by a second, well-formed plain entry. -/
def cfgC1 : ConfigFile :=
  { name := "p",
    services := some [("a",
      { active := true, type := "node", size := "mili", version := "latest",
        volumes := some ["https://:x", "ok.txt:/ok"] })] }

/-- C1 (code bug): on the malformed first entry the resolver stops — the
second entry is never processed, the clone's volume list stays at its reset
empty state and the side map records nothing — yet the returned error field
is null: the source's final return hardcodes `error: null`, discarding the
error cell its loops set and break on. -/
theorem changeConfigFileVolumes_discardsError :
    (changeConfigFileVolumes cfgC1 "u1" none (fun _ => .ok "data") "/tmp").error = none ∧
    (changeConfigFileVolumes cfgC1 "u1" none (fun _ => .ok "data") "/tmp").volumes =
      some [("a", [])] ∧
    ((changeConfigFileVolumes cfgC1 "u1" none
        (fun _ => .ok "data") "/tmp").config.services.getD []).map
      (fun kv => kv.2.volumes) = [some []] := by
  exact ⟨by decide, by decide, by decide⟩

/-- Custom service missing pwd (structurally required). -/
def svcC2a : Service :=
  { active := false, type := "node", size := "mili", version := "latest" }

/-- Common service whose name holds a percent sign. -/
def svcC2b : Service :=
  { active := false, type := "redis", size := "mili", version := "latest" }

/-- Config with the failing service first and the percent-named one second. -/
def cfgC2 : ConfigFile :=
  { name := "p", services := some [("a", svcC2a), ("b%", svcC2b)] }

/-- Config with the percent-named service alone. -/
def cfgC2b : ConfigFile := { name := "p", services := some [("b%", svcC2b)] }

/-- C2 counterexample: when service "a" fails its structurally required pwd
check, the returned list is exactly its pwd finding and holds no finding for
the later service "b%", although "b%" alone yields its name finding —
validation stops entirely instead of continuing with subsequent services. -/
theorem checkConfig_laterFindingsDropped_cex :
    checkConfig cfgC2 (some ddExample) none true = [fPwdMissing "a"] ∧
    checkConfig cfgC2b (some ddExample) none true = [fNameSymbol "b%"] :=
  ⟨by decide, by decide⟩

/-- C2 (amended): a failed structurally required field check aborts the whole
validator: with the processed entries split as pre ++ (k, s) :: post, the pre
prefix accumulating findings acc and (k, s) early-returning with findings l,
checkConfig returns acc ++ l unsorted, and the entries of post contribute
nothing. -/
theorem checkConfig_structuralShortCircuit (cfg : ConfigFile) (dd : DeployData)
    (fsm : Option FSModel) (isServer : Bool)
    (services pre post : List (String × Service)) (k : String) (s : Service)
    (acc l : List Finding)
    (hs : cfg.services = some services)
    (hserver : serverOk cfg = true)
    (hsplit : processedPairs services = pre ++ (k, s) :: post)
    (hpre : goServices services dd fsm isServer pre [] = .ok acc)
    (hfail : perService services dd fsm isServer k s = .error l) :
    checkConfig cfg (some dd) fsm isServer = acc ++ l := by
  have hpne : processedPairs services ≠ [] := by
    rw [hsplit]
    simp
  have hlen : (services.length == 0) = false := by
    cases hx : services with
    | nil =>
      exfalso
      apply hpne
      rw [hx]
      rfl
    | cons a t => simp
  have hglue : checkConfigExc cfg (some dd) fsm isServer =
      goServices services dd fsm isServer (processedPairs services) [] := by
    unfold checkConfigExc
    cases hsv : cfg.server with
    | none => simp [hs, hlen]
    | some srv =>
      have hns : optStrFalsy srv.node_name = false := by
        have h2 := hserver
        unfold serverOk at h2
        rw [hsv] at h2
        simpa using h2
      simp [hs, hlen, hns]
  unfold checkConfig
  rw [hglue, hsplit, goServices_append hpre]
  simp [goServices, hfail]

/-- Config of one custom service missing pwd and nothing else wrong. -/
def cfgC2w : ConfigFile := { name := "p", services := some [("a", svcC2a)] }

/-- C2 witness: the amended statement at a concrete config whose first and
only service early-returns with its pwd finding. -/
theorem checkConfig_structuralShortCircuit_witness :
    checkConfig cfgC2w (some ddExample) none true = [] ++ [fPwdMissing "a"] :=
  checkConfig_structuralShortCircuit cfgC2w ddExample none true
    [("a", svcC2a)] [] [] "a" svcC2a [] [fPwdMissing "a"]
    rfl rfl (by decide) rfl rfl

/-- C6: the caller's config object is never mutated: through every path of
changeConfigFileVolumes — guard failures, materialize mode with any fetch
outcome, replay mode — the state cell holding the original still carries the
input value at return; every volume rewrite goes through the clone cell. -/
theorem changeConfigFileVolumes_preservesInput (config : ConfigFile)
    (userId : String) (volumes : Option (List (String × List String)))
    (fetch : String → Except String String) (tmp : String) :
    (changeConfigFileVolumesRun config userId volumes fetch tmp).1.orig = config := by
  unfold changeConfigFileVolumesRun
  split
  · rfl
  · split
    · rfl
    · split
      · split
        · rfl
        · dsimp only
          rw [matLoop_orig]
      · dsimp only
        rw [replayLoop_orig]

/-- Split of a character list at every occurrence of a separator. -/
def splitChar (c : Char) : List Char → List (List Char)
  | [] => [[]]
  | d :: t =>
    let r := splitChar c t
    if d == c then [] :: r
    else
      match r with
      | [] => [[d]]
      | h :: rt => (d :: h) :: rt

/-- Modelled from the claim for comparison: strips a trailing ".git", splits
the url on slashes, and takes the last two segments as project and user in
that order, null when either segment is absent. -/
def parseGitUrlClaim (url : String) : Option ParsedGitRepo :=
  let cs := url.toList
  let cs := if ".git".toList.isSuffixOf cs then cs.take (cs.length - 4) else cs
  match (splitChar '/' cs).reverse with
  | p :: usr :: _ =>
    if p.isEmpty || usr.isEmpty then none
    else some ⟨String.mk usr, String.mk p⟩
  | _ => none

/-- C9 counterexample: the source removes the first ".git" occurrence
anywhere, not a trailing one: on a url whose user segment ends in ".git" the
source yields user "team" while the claimed procedure yields "team.git". -/
theorem parseGitUrl_trailingGit_cex :
    parseGitUrl "https://github.com/team.git/app" = some ⟨"team", "app"⟩ ∧
    parseGitUrlClaim "https://github.com/team.git/app" = some ⟨"team.git", "app"⟩ ∧
    parseGitUrl "https://github.com/team.git/app" ≠
      parseGitUrlClaim "https://github.com/team.git/app" :=
  ⟨by decide, by decide, by decide⟩

/-- C9 (amended): checkGitType classifies by unanchored pattern match to
github or gitlab and to nothing else, with the stated concrete examples;
parseGitUrl removes the first ".git" occurrence anywhere in the url (not only
a trailing one) and then takes the last two slash-led runs of segment
characters, null when either is absent: the stated example parses as
{user acme, project app}, a url whose non-final segment carries ".git" loses
it, and a bare host yields null. -/
theorem gitHelpers_amended :
    checkGitType "https://github.com/acme/app.git" = some "github" ∧
    parseGitUrl "https://github.com/acme/app.git" = some ⟨"acme", "app"⟩ ∧
    checkGitType "https://bitbucket.org/x/y" = none ∧
    (∀ url : String, checkGitType url = none ∨ checkGitType url = some "github" ∨
      checkGitType url = some "gitlab") ∧
    parseGitUrl "https://github.com/team.git/app" = some ⟨"team", "app"⟩ ∧
    parseGitUrl "https://github.com" = none := by
  refine ⟨by decide, by decide, by decide, ?_, by decide, by decide⟩
  intro url
  unfold checkGitType
  dsimp only
  split
  · right; right; rfl
  · split
    · right; left; rfl
    · left; rfl

/-- C8: computeCostService is null exactly when the size name is absent from
the catalog list; when the name is found at index i, it returns month =
round(memory / (baseValue / (baseCost · 100 · (1 - i/13)))), hour =
month/720, minute = hour/60 — uniformly in i, with no special case when the
coefficient is zero or negative. -/
theorem computeCostService_spec (s : String) (dd : DeployData) :
    (computeCostService s dd = none ↔ ∀ z ∈ dd.sizes, z.name ≠ s) ∧
    (∀ z, dd.sizes.find? (fun x => x.name == s) = some z →
      ∃ m : ℚ,
        m = ((round (z.memory.value /
          (dd.baseValue / (dd.baseCost * 100 *
            (1 - (dd.sizes.findIdx (fun x => x.name == s) : ℚ) / 13)))) : ℤ) : ℚ) ∧
        computeCostService s dd = some ⟨m, m / 720, m / 720 / 60⟩) := by
  constructor
  · unfold computeCostService
    cases hf : dd.sizes.find? (fun x => x.name == s) with
    | none =>
      constructor
      · intro _ z hz
        have h2 := List.find?_eq_none.mp hf z hz
        simpa using h2
      · intro _
        rfl
    | some z =>
      constructor
      · intro h
        exact Option.noConfusion h
      · intro hall
        exfalso
        have hz := List.find?_some hf
        have hmem := List.mem_of_find?_eq_some hf
        exact (hall z hmem) (by simpa using hz)
  · intro z hf
    unfold computeCostService
    rw [hf]
    dsimp only
    have hco : (1 : ℚ) - (dd.sizes.findIdx (fun x => x.name == s) : ℚ) / (13 / 10) / 10 =
        1 - (dd.sizes.findIdx (fun x => x.name == s) : ℚ) / 13 := by
      ring
    refine ⟨_, rfl, ?_⟩
    rw [hco]
    have e1 : ∀ q : ℚ, q / 30 / 24 = q / 720 := fun q => by ring
    rw [e1]

/-- Catalog with a single size mega of memory value 4000. -/
def ddC8 : DeployData :=
  { services := [], sizes := [⟨"mega", ⟨"m", 4000⟩, 1, "x", 3⟩],
    baseValue := 1000, baseCost := 1 }

/-- C8 witness: at index 0 the coefficient is 1 and the mega size prices to
month 400 = round(4000 / (1000 / 100)), hour 400/720, minute 400/720/60. -/
theorem computeCostService_spec_witness :
    computeCostService "mega" ddC8 = some ⟨400, 400 / 720, 400 / 720 / 60⟩ := by
  obtain ⟨m, hm, h⟩ :=
    (computeCostService_spec "mega" ddC8).2 ⟨"mega", ⟨"m", 4000⟩, 1, "x", 3⟩ rfl
  have hidx : ddC8.sizes.findIdx (fun x => x.name == "mega") = 0 := rfl
  rw [hidx] at hm
  rw [h, hm]
  norm_num [ddC8]

theorem mem_fst_of_lookupL {α : Type} :
    ∀ {ps : List (String × α)} {k : String} {v : α},
      lookupL ps k = some v → k ∈ ps.map Prod.fst := by
  intro ps
  induction ps with
  | nil =>
    intro k v h
    exact Option.noConfusion h
  | cons p t ih =>
    intro k v h
    obtain ⟨k', v'⟩ := p
    simp only [lookupL] at h
    simp only [List.map_cons, List.mem_cons]
    by_cases he : (k' == k) = true
    · exact .inl (eq_of_beq he).symm
    · rw [if_neg he] at h
      exact .inr (ih h)

theorem envMirrorFold_unchanged {n : String} :
    ∀ (el : List String) (st0 : Bool × Option String),
      (∀ x ∈ el, getEnvironmentName x ≠ some n) →
      el.foldl (envMirrorStep n) st0 = st0 := by
  intro el
  induction el with
  | nil =>
    intro st0 _
    rfl
  | cons e t ih =>
    intro st0 hnot
    rw [List.foldl_cons]
    have hstep : envMirrorStep n st0 e = st0 := by
      unfold envMirrorStep
      cases hge : getEnvironmentName e with
      | none => rfl
      | some en =>
        have hne : (en == n) = false := by
          refine beq_eq_false_iff_ne.mpr ?_
          intro e2
          subst e2
          exact hnot e (List.mem_cons_self _ _) hge
        simp [hne]
    rw [hstep]
    exact ih st0 (fun x hx => hnot x (List.mem_cons_of_mem _ hx))

theorem checkConfigExc_ok_elim {cfg : ConfigFile} {dd : DeployData}
    {fsm : Option FSModel} {isServer : Bool}
    {services : List (String × Service)} {L : List Finding}
    (hs : cfg.services = some services)
    (hexc : checkConfigExc cfg (some dd) fsm isServer = .ok L) :
    goServices services dd fsm isServer (processedPairs services) [] = .ok L := by
  unfold checkConfigExc at hexc
  rw [hs] at hexc
  dsimp only at hexc
  repeat' split at hexc
  all_goals first
    | exact hexc
    | exact Except.noConfusion hexc

theorem commonFindings_env_mem {services : List (String × Service)} {kc : String}
    {sc : Service} {f : Finding} {e : String}
    (hcommon : isCommonService sc.type = true) (hactive : sc.active = true)
    (he : e ∈ sc.environment.getD [])
    (hf : f ∈ commonEnvEntryScan services kc (ENVIRONMENT_REQUIRED_COMMON sc.type) e) :
    f ∈ commonFindings services kc sc := by
  unfold commonFindings
  rw [hcommon]
  rw [if_neg (by decide)]
  refine List.mem_append_right _ ?_
  rw [hactive, if_pos rfl]
  refine List.mem_append_right _ ?_
  exact List.mem_bind.mpr ⟨e, he, hf⟩

/-- Active common redis service setting its required password variable. -/
def svcC4c : Service :=
  { active := true, type := "redis", size := "mili", version := "latest",
    environment := some ["REDIS_PASSWORD=x"] }

/-- Active custom service depending on "c" with an environment list that does
not mirror the password variable. -/
def svcC4d : Service :=
  { active := true, type := "node", size := "mili", version := "latest",
    pwd := some "./", depends_on := some ["c"], environment := some ["A=b"] }

/-- Inactive custom service missing pwd, placed first in key order. -/
def svcC4z : Service :=
  { active := false, type := "node", size := "mili", version := "latest" }

/-- Config in which the failing service "z" precedes the common/custom pair. -/
def cfgC4x : ConfigFile :=
  { name := "p", services := some [("z", svcC4z), ("c", svcC4c), ("d", svcC4d)] }

/-- C4 counterexample: every condition of the claim holds — "c" is an active
common redis service setting required REDIS_PASSWORD, "d" is an active custom
service listing "c" in depends_on and declaring an environment without that
name, which is not the MySQL root password — yet the returned list holds no
advisory finding at all, because the earlier service "z" short-circuits the
validator before "c" is examined. -/
theorem checkConfig_envMirrorAdvisory_cex :
    svcC4c.active = true ∧ isCommonService svcC4c.type = true ∧
    ("REDIS_PASSWORD=x" ∈ svcC4c.environment.getD []) ∧
    parseEnvironmentVariable "REDIS_PASSWORD=x" = some ⟨"REDIS_PASSWORD", "x"⟩ ∧
    ("REDIS_PASSWORD" ∈ ENVIRONMENT_REQUIRED_COMMON svcC4c.type) ∧
    svcC4d.active = true ∧ isCustomService svcC4d.type = true ∧
    svcC4d.depends_on = some ["c"] ∧ svcC4d.environment = some ["A=b"] ∧
    (∀ e ∈ ["A=b"], getEnvironmentName e ≠ some "REDIS_PASSWORD") ∧
    "REDIS_PASSWORD" ≠ ENVIRONMENT_SWITCH_mysql_rootPassword ∧
    (checkConfig cfgC4x (some ddExample) none true).all Finding.exit = true := by
  decide

/-- Shared membership step for the mirrored-variable advisories: under the
no-short-circuit proviso and the claim's conditions on the common service,
any finding produced by the per-dependent scan envScanDep for the parsed
variable reaches the validator's output. -/
theorem envScanDep_to_checkConfig (cfg : ConfigFile) (dd : DeployData)
    (fsm : Option FSModel) (isServer : Bool)
    (services : List (String × Service)) (kc kd : String) (sc sd : Service)
    (e : String) (v : EnvVariable) (f : Finding)
    (hs : cfg.services = some services)
    (hok : exceptOk (checkConfigExc cfg (some dd) fsm isServer) = true)
    (hmemc : (kc, sc) ∈ processedPairs services)
    (hcommon : isCommonService sc.type = true)
    (hactive : sc.active = true)
    (he : e ∈ sc.environment.getD [])
    (hpe : parseEnvironmentVariable e = some v)
    (hvar : v.name ∈ ENVIRONMENT_REQUIRED_COMMON sc.type)
    (hlkd : lookupL services kd = some sd)
    (hf : f ∈ envScanDep kc v.name v.value kd sd) :
    f ∈ checkConfig cfg (some dd) fsm isServer := by
  cases hexc : checkConfigExc cfg (some dd) fsm isServer with
  | error l =>
    rw [hexc] at hok
    simp [exceptOk] at hok
  | ok L =>
    have hcc : checkConfig cfg (some dd) fsm isServer = sortFindings L := by
      unfold checkConfig
      rw [hexc]
    rw [hcc, mem_sortFindings]
    have hglue := checkConfigExc_ok_elim hs hexc
    obtain ⟨ls, hps, hsub⟩ := goServices_mem hglue hmemc
    apply hsub
    unfold perService at hps
    split at hps
    · exact Except.noConfusion hps
    · have hcf : customFindings services dd kc sc = .ok [] := by
        unfold customFindings
        rw [common_not_custom hcommon]
        rfl
      rw [hcf] at hps
      rw [← Except.ok.inj hps]
      refine List.mem_append_right _ ?_
      refine commonFindings_env_mem hcommon hactive he ?_
      unfold commonEnvEntryScan
      rw [hpe]
      dsimp only
      have hvc : (ENVIRONMENT_REQUIRED_COMMON sc.type).contains v.name = true := by
        simpa using hvar
      rw [hvc, if_pos rfl]
      refine List.mem_bind.mpr ⟨kd, mem_fst_of_lookupL hlkd, ?_⟩
      rw [hlkd]
      exact hf

/-- C4 (amended): provided no service short-circuits the validator, for every
active common service (kc, sc) among the processed entries, every environment
entry it sets whose parsed name is in its required-variable table, and every
active custom service sd under key kd that lists kc in depends_on and
declares an environment list el: if el does not declare that name, the
not-provided advisory is in the returned list — unless the variable is the
MySQL root password — and if el declares the name with a (last-declared)
value different from the common service's, the value-mismatch advisory is in
the returned list. -/
theorem checkConfig_envMirrorAdvisory (cfg : ConfigFile) (dd : DeployData)
    (fsm : Option FSModel) (isServer : Bool)
    (services : List (String × Service)) (kc kd : String) (sc sd : Service)
    (e : String) (v : EnvVariable) (el dl : List String)
    (hs : cfg.services = some services)
    (hok : exceptOk (checkConfigExc cfg (some dd) fsm isServer) = true)
    (hmemc : (kc, sc) ∈ processedPairs services)
    (hcommon : isCommonService sc.type = true)
    (hactive : sc.active = true)
    (he : e ∈ sc.environment.getD [])
    (hpe : parseEnvironmentVariable e = some v)
    (hvar : v.name ∈ ENVIRONMENT_REQUIRED_COMMON sc.type)
    (hlkd : lookupL services kd = some sd)
    (hdactive : sd.active = true)
    (hcustom : isCustomService sd.type = true)
    (hdep : sd.depends_on = some dl)
    (hdepc : kc ∈ dl)
    (henv : sd.environment = some el) :
    ((∀ x ∈ el, getEnvironmentName x ≠ some v.name) →
      v.name ≠ ENVIRONMENT_SWITCH_mysql_rootPassword →
      fEnvNotProvided kc v.name kd ∈ checkConfig cfg (some dd) fsm isServer) ∧
    (∀ w : Option String,
      el.foldl (envMirrorStep v.name) (false, none) = (true, w) →
      some v.value ≠ w →
      fEnvValueMismatch kc v.name kd ∈ checkConfig cfg (some dd) fsm isServer) := by
  constructor
  · intro hnot hmysql
    refine envScanDep_to_checkConfig cfg dd fsm isServer services kc kd sc sd e v _
      hs hok hmemc hcommon hactive he hpe hvar hlkd ?_
    unfold envScanDep
    rw [hdep]
    dsimp only
    have hdc : (dl.contains kc) = true := by
      simpa using hdepc
    rw [hdc]
    rw [if_neg (by decide)]
    rw [hcustom]
    rw [if_neg (by decide)]
    rw [henv]
    dsimp only
    rw [envMirrorFold_unchanged el (false, none) hnot]
    have hmb : (v.name != ENVIRONMENT_SWITCH_mysql_rootPassword) = true := by
      simpa using hmysql
    simp [hmb]
  · intro w hfold hneq
    refine envScanDep_to_checkConfig cfg dd fsm isServer services kc kd sc sd e v _
      hs hok hmemc hcommon hactive he hpe hvar hlkd ?_
    unfold envScanDep
    rw [hdep]
    dsimp only
    have hdc : (dl.contains kc) = true := by
      simpa using hdepc
    rw [hdc]
    rw [if_neg (by decide)]
    rw [hcustom]
    rw [if_neg (by decide)]
    rw [henv]
    dsimp only
    rw [hfold]
    have hne : (some v.value != w) = true := by
      simpa using hneq
    simp [hne]

/-- Active custom service depending on "c" that mirrors the password variable
with a different value. -/
def svcC4e : Service :=
  { active := true, type := "node", size := "mili", version := "latest",
    pwd := some "./", depends_on := some ["c"],
    environment := some ["REDIS_PASSWORD=y"] }

/-- Config with the common service, a dependent that omits the variable and a
dependent that mirrors it with another value, processed to completion. -/
def cfgC4w : ConfigFile :=
  { name := "p", services := some [("c", svcC4c), ("d", svcC4d), ("e", svcC4e)] }

/-- C4 witness: on the three-service config both advisories are in the
output — the not-provided one for "d" and the value-mismatch one for "e". -/
theorem checkConfig_envMirrorAdvisory_witness :
    fEnvNotProvided "c" "REDIS_PASSWORD" "d" ∈
        checkConfig cfgC4w (some ddExample) none true ∧
      fEnvValueMismatch "c" "REDIS_PASSWORD" "e" ∈
        checkConfig cfgC4w (some ddExample) none true :=
  ⟨(checkConfig_envMirrorAdvisory cfgC4w ddExample none true
      [("c", svcC4c), ("d", svcC4d), ("e", svcC4e)] "c" "d" svcC4c svcC4d
      "REDIS_PASSWORD=x" ⟨"REDIS_PASSWORD", "x"⟩ ["A=b"] ["c"]
      rfl (by decide) (by decide) (by decide) rfl (by decide) (by decide)
      (by decide) (by decide) rfl (by decide) rfl (by decide) rfl).1
      (by decide) (by decide),
   (checkConfig_envMirrorAdvisory cfgC4w ddExample none true
      [("c", svcC4c), ("d", svcC4d), ("e", svcC4e)] "c" "e" svcC4c svcC4e
      "REDIS_PASSWORD=x" ⟨"REDIS_PASSWORD", "x"⟩ ["REDIS_PASSWORD=y"] ["c"]
      rfl (by decide) (by decide) (by decide) rfl (by decide) (by decide)
      (by decide) (by decide) rfl (by decide) rfl (by decide) rfl).2
      (some "y") (by decide) (by decide)⟩

/-- C7: round trip. If materialize mode on a config hands back a volumes map
(so the guards passed), then replaying the same config with that map yields a
config whose volume list, for every service key the map holds, is exactly the
list the map supplies for that key — even for the partial maps an aborted
materialize run leaves behind, and whatever fetch oracle or temp directory
the replay pass uses. -/
theorem changeConfigFileVolumes_roundTrip (cfg : ConfigFile)
    (userId tmp tmp2 : String) (fetch fetch2 : String → Except String String)
    (services : List (String × Service)) (v1 : List (String × List String))
    (k : String) (l : List String)
    (hs : cfg.services = some services)
    (hnd : (services.map Prod.fst).Nodup)
    (hv : (changeConfigFileVolumes cfg userId none fetch tmp).volumes = some v1)
    (hk : lookupL v1 k = some l) :
    ∃ s', lookupL (((changeConfigFileVolumes cfg userId (some v1) fetch2
        tmp2).config).services.getD []) k = some s' ∧ s'.volumes = some l := by
  unfold changeConfigFileVolumes changeConfigFileVolumesRun at hv
  by_cases hname : strFalsy cfg.name = true
  · rw [if_pos hname] at hv
    exact absurd hv (by simp)
  · rw [if_neg hname] at hv
    rw [hs] at hv
    dsimp only at hv
    by_cases huid : strFalsy userId = true
    · rw [if_pos huid] at hv
      exact absurd hv (by simp)
    · rw [if_neg huid] at hv
      dsimp only at hv
      have hv2 : (matLoop fetch tmp userId cfg.name (processedPairs services)
          ⟨cfg, cfg, [], none⟩).varVolumes = v1 := Option.some.inj hv
      have hdom := matLoop_var_dom fetch tmp userId cfg.name
        (processedPairs services) ⟨cfg, cfg, [], none⟩ (by rw [hv2, hk]; rfl)
      rcases hdom with habs | ⟨s, hsmem, hsvol⟩
      · exact absurd habs (by simp [lookupL])
      · unfold changeConfigFileVolumes changeConfigFileVolumesRun
        rw [if_neg hname, hs]
        dsimp only
        have hsubl : List.Sublist (processedPairs services) services :=
          List.takeWhile_sublist _
        have hnd2 : ((processedPairs services).map Prod.fst).Nodup :=
          List.Nodup.sublist (hsubl.map Prod.fst) hnd
        have herr0 : (⟨cfg, cfg, [], none⟩ : VolState).error = none := rfl
        have hcs0 : (⟨cfg, cfg, [], none⟩ : VolState).clone.services =
            some services := hs
        obtain ⟨cs', hc1, hc2⟩ :=
          @replayLoop_sets v1 k s (processedPairs services) ⟨cfg, cfg, [], none⟩
            services herr0 hcs0 hnd2 hsmem hsvol
        rw [hc1, Option.getD_some]
        have hlk : lookupL services k = some s :=
          lookupL_of_mem_nodup hnd (hsubl.subset hsmem)
        rw [hc2, hlk, hk]
        exact ⟨setVolumes (some l) s, rfl, rfl⟩

/-- Service with one plain and one remote volume entry. -/
def svcC7a : Service :=
  { active := true, type := "node", size := "mili", version := "latest",
    pwd := some "./", volumes := some ["f.txt:/r", "https://h/g.txt:/s"] }

/-- Config for the round-trip witness. -/
def cfgC7 : ConfigFile := { name := "p", services := some [("a", svcC7a)] }

/-- C7 witness: materializing cfgC7 records the remote entry under "a";
replaying with that map sets the volume list of "a" to exactly it. -/
theorem changeConfigFileVolumes_roundTrip_witness :
    ∃ s', lookupL (((changeConfigFileVolumes cfgC7 "u1"
        (some [("a", ["https://h/g.txt:/s"])]) (fun _ => .ok "data")
        "/tmp").config).services.getD []) "a" = some s' ∧
      s'.volumes = some ["https://h/g.txt:/s"] :=
  changeConfigFileVolumes_roundTrip cfgC7 "u1" "/tmp" "/tmp"
    (fun _ => .ok "data") (fun _ => .ok "data")
    [("a", svcC7a)] [("a", ["https://h/g.txt:/s"])] "a" ["https://h/g.txt:/s"]
    rfl (by decide) (by decide) (by decide)
